import Mathlib

/-!
Verification of the gswap SDK core against its specification.

Shallow embedding of the SDK's deterministic core:
* `BN` models `bignumber.js` values (an arbitrary-precision decimal library whose
  finite values are rationals, plus the non-finite values `Infinity`, `-Infinity`, `NaN`).
* `GSwapSDKError` models `src/classes/gswap_sdk_error.ts`.
* validation helpers model `src/utils/validation.ts`.
* token ordering models `src/utils/token.ts`.
* `Pools` models the tick/price conversion of `src/classes/pools.ts`.
* `Quoting` models the fee-tier fan-out of `src/classes/quoting.ts`.
* `TransactionWaiter` models the outcome registry of `src/classes/transaction_waiter.ts`.
* `Positions.calculateOptimalPositionSize` models `src/classes/positions.ts`.
-/

/-- A detail payload value inside an SDK error: a string, a numeric value, or
JavaScript `undefined` (used when an optional detail field is absent). -/
inductive DetailValue where
  | str (s : String)
  | rat (q : ℚ)
  | int (n : ℤ)
  | undef
  deriving DecidableEq, Repr

/-- Models a `bignumber.js` value: a finite arbitrary-precision decimal (a rational),
positive or negative `Infinity`, or `NaN`. -/
inductive BN where
  | fin (q : ℚ)
  | inf
  | ninf
  | nan
  deriving DecidableEq, Repr

/-- Models `BigNumber.prototype.isFinite`. -/
def BN.isFinite : BN → Bool
  | .fin _ => true
  | _ => false

/-- Models `BigNumber.prototype.isZero`. -/
def BN.isZero : BN → Bool
  | .fin q => q = 0
  | _ => false

/-- Models `BigNumber.prototype.isNegative` (true iff the stored sign is negative;
`NaN` has no sign, zero has positive sign). -/
def BN.isNegative : BN → Bool
  | .fin q => q < 0
  | .ninf => true
  | _ => false

/-- Models `BigNumber.prototype.isPositive` (true iff the stored sign is positive;
note that zero has positive sign, so `BigNumber(0).isPositive()` is true). -/
def BN.isPositive : BN → Bool
  | .fin q => 0 ≤ q
  | .inf => true
  | _ => false

/-- Models `BigNumber.prototype.isGreaterThan`. Comparisons with `NaN` are false. -/
def BN.isGreaterThan : BN → BN → Bool
  | .nan, _ => false
  | _, .nan => false
  | .fin a, .fin b => decide (b < a)
  | .inf, .inf => false
  | .inf, _ => true
  | _, .inf => false
  | .ninf, _ => false
  | _, .ninf => true

/-- The finite rational value carried by a `BN`, with a default for non-finite
values (only used on paths whose callers have already validated finiteness). -/
def BN.toRatOr (d : ℚ) : BN → ℚ
  | .fin q => q
  | _ => d

/-- The `value` field of a validation-error detail, rendering a `BN` input. -/
def BN.toDetail : BN → DetailValue
  | .fin q => .rat q
  | .inf => .str "Infinity"
  | .ninf => .str "-Infinity"
  | .nan => .str "NaN"

/-- Models the `GSwapSDKError` class of `src/classes/gswap_sdk_error.ts`:
a message, a stable machine-readable code, and a detail record. -/
structure GSwapSDKError where
  message : String
  code : String
  details : List (String × DetailValue)
  deriving DecidableEq, Repr

/-- Models the static factory `GSwapSDKError.transactionWaitTimeoutError`. -/
def transactionWaitTimeoutError (txId : String) : GSwapSDKError :=
  { message := "Transaction wait timed out."
    code := "TRANSACTION_WAIT_TIMEOUT"
    details := [("txId", .str txId)] }

/-- Models the static factory `GSwapSDKError.transactionWaitFailedError`:
the remote detail's `transactionId` (when present, a string) is surfaced as
`transactionHash` and the remaining detail entries are spread into the details. -/
def transactionWaitFailedError (txId : String) (detail : List (String × String)) :
    GSwapSDKError :=
  let transactionHash : DetailValue :=
    match detail.lookup "transactionId" with
    | some s => .str s
    | none => .undef
  let rest := detail.filter (fun kv => kv.1 ≠ "transactionId")
  { message := "Transaction wait failed."
    code := "TRANSACTION_WAIT_FAILED"
    details := [("txId", .str txId), ("transactionHash", transactionHash)] ++
      rest.map (fun kv => (kv.1, .str kv.2)) }

/-- Models the static factory `GSwapSDKError.incorrectTokenOrderingError`. -/
def incorrectTokenOrderingError (specifiedToken0 specifiedToken1 : String) : GSwapSDKError :=
  { message := "Token ordering is incorrect. token0 should sort below token1."
    code := "INCORRECT_TOKEN_ORDERING"
    details := [("specifiedToken0", .str specifiedToken0),
                ("specifiedToken1", .str specifiedToken1)] }

/-- Models the static factory `GSwapSDKError.noPoolAvailableError`. -/
def noPoolAvailableError (tokenIn tokenOut : String) (fee : Option ℤ) : GSwapSDKError :=
  { message :=
      match fee with
      | some _ => "No pool available for the specified token pair at fee tier"
      | none => "No pools available for the specified token pair"
    code := "NO_POOL_AVAILABLE"
    details := [("tokenIn", .str tokenIn), ("tokenOut", .str tokenOut),
                ("fee", match fee with | some f => .int f | none => .undef)] }

/-- Models `validateNumericAmount` of `src/utils/validation.ts`: rejects non-finite
values, then zero (unless allowed), then negative values. -/
def validateNumericAmount (amount : BN) (parameterName : String)
    (allowZero : Bool := false) : Except GSwapSDKError Unit :=
  if !amount.isFinite then
    .error { message := "Invalid " ++ parameterName ++ ": must be a finite number"
             code := "VALIDATION_ERROR"
             details := [("type", .str "INVALID_NUMERIC_AMOUNT"),
                         ("parameterName", .str parameterName),
                         ("value", amount.toDetail), ("reason", .str "not_finite")] }
  else if !allowZero && amount.isZero then
    .error { message := "Invalid " ++ parameterName ++ ": must be positive"
             code := "VALIDATION_ERROR"
             details := [("type", .str "INVALID_NUMERIC_AMOUNT"),
                         ("parameterName", .str parameterName),
                         ("value", amount.toDetail), ("reason", .str "zero_not_allowed")] }
  else if amount.isNegative then
    .error { message := "Invalid " ++ parameterName ++ ": must be " ++
               (if allowZero then "non-negative" else "positive")
             code := "VALIDATION_ERROR"
             details := [("type", .str "INVALID_NUMERIC_AMOUNT"),
                         ("parameterName", .str parameterName),
                         ("value", amount.toDetail), ("reason", .str "negative")] }
  else
    .ok ()

/-- Models `validatePriceValues` of `src/utils/validation.ts`: a non-finite upper
price is first substituted with the finite ceiling `1e18`; all three prices must
then be finite with positive sign, and the range must satisfy lower ≤ upper. -/
def validatePriceValues (spotPrice lowerPrice upperPrice : BN) :
    Except GSwapSDKError Unit :=
  let bnUpperPrice := if upperPrice.isFinite then upperPrice else BN.fin (10 ^ 18)
  if !(spotPrice.isFinite && lowerPrice.isFinite && bnUpperPrice.isFinite &&
       spotPrice.isPositive && lowerPrice.isPositive && bnUpperPrice.isPositive) then
    .error { message := "Invalid price values: all prices must be finite and positive"
             code := "VALIDATION_ERROR"
             details := [("type", .str "INVALID_PRICE_VALUES"),
                         ("spotPrice", spotPrice.toDetail),
                         ("lowerPrice", lowerPrice.toDetail),
                         ("upperPrice", upperPrice.toDetail)] }
  else if lowerPrice.isGreaterThan bnUpperPrice then
    .error { message :=
               "Invalid price range: lower price must be less than or equal to upper price"
             code := "VALIDATION_ERROR"
             details := [("type", .str "INVALID_PRICE_RANGE"),
                         ("lowerPrice", lowerPrice.toDetail),
                         ("upperPrice", upperPrice.toDetail)] }
  else
    .ok ()

/-- Models `validateTokenDecimals`: decimals must be a non-negative integer
(integrality is carried by the `ℤ` type of the embedding). -/
def validateTokenDecimals (decimals : ℤ) (parameterName : String) :
    Except GSwapSDKError Unit :=
  if decimals < 0 then
    .error { message := "Invalid " ++ parameterName ++ ": must be a non-negative integer"
             code := "VALIDATION_ERROR"
             details := [("type", .str "INVALID_TOKEN_DECIMALS"),
                         ("parameterName", .str parameterName),
                         ("value", .int decimals)] }
  else
    .ok ()

/-- Models `validateTickSpacing`: the spacing must be a positive integer
(integrality is carried by the `ℤ` type of the embedding). -/
def validateTickSpacing (tickSpacing : ℤ) : Except GSwapSDKError Unit :=
  if tickSpacing ≤ 0 then
    .error { message := "Invalid tick spacing: must be a positive integer"
             code := "VALIDATION_ERROR"
             details := [("type", .str "INVALID_TICK_SPACING"),
                         ("value", .int tickSpacing)] }
  else
    .ok ()

/-!
Token ordering, from `src/utils/token.ts`. Tokens are handled through their
stringified composite-key form (`stringifyTokenClassKey` is the identity on
strings), so the embedding takes tokens as strings. The sign of
`String.prototype.localeCompare` is modelled as code-point lexicographic
comparison: a consistent total comparator, which is all the ordering code
relies on.
-/

/-- Code-point lexicographic strict comparison of character lists. -/
def lexLtChars : List Char → List Char → Bool
  | [], [] => false
  | [], _ :: _ => true
  | _ :: _, [] => false
  | c :: cs, d :: ds =>
    if c.toNat < d.toNat then true
    else if d.toNat < c.toNat then false
    else lexLtChars cs ds

/-- Models the sign of `a.localeCompare(b)`: negative, zero or positive. -/
def localeCompareSign (a b : String) : ℤ :=
  if lexLtChars a.data b.data then -1 else if lexLtChars b.data a.data then 1 else 0

/-- Models `compareTokens` of `src/utils/token.ts`. -/
def compareTokens (first second : String) : ℤ :=
  localeCompareSign first second

/-- The record returned by `getTokenOrdering`. -/
structure TokenOrderingResult (A : Type) where
  token0 : String
  token1 : String
  zeroForOne : Bool
  token0Attributes : Option A
  token1Attributes : Option A
  deriving DecidableEq, Repr

/-- Models `getTokenOrdering` of `src/utils/token.ts`: computes `zeroForOne` from
the comparator; in the reordering branch, strict mode fails with
`INCORRECT_TOKEN_ORDERING`, and non-strict mode swaps the tokens together with
their attribute payloads. -/
def getTokenOrdering {A : Type} (first second : String) (assertCorrectness : Bool)
    (token1Data token2Data : Option A := none) :
    Except GSwapSDKError (TokenOrderingResult A) :=
  let zeroForOne := compareTokens first second < 0
  if zeroForOne then
    .ok { token0 := first, token1 := second, zeroForOne := zeroForOne
          token0Attributes := token1Data, token1Attributes := token2Data }
  else if assertCorrectness then
    .error (incorrectTokenOrderingError first second)
  else
    .ok { token0 := second, token1 := first, zeroForOne := zeroForOne
          token0Attributes := token2Data, token1Attributes := token1Data }

lemma lexLtChars_antisymm : ∀ (x y : List Char),
    lexLtChars x y = false → lexLtChars y x = false → x = y := by
  intro x
  induction x with
  | nil =>
    intro y hxy _
    cases y with
    | nil => rfl
    | cons d ds => simp [lexLtChars] at hxy
  | cons c cs ih =>
    intro y hxy hyx
    cases y with
    | nil => simp [lexLtChars] at hyx
    | cons d ds =>
      simp only [lexLtChars] at hxy hyx
      by_cases h1 : c.toNat < d.toNat
      · simp [h1] at hxy
      · by_cases h2 : d.toNat < c.toNat
        · simp [h1, h2] at hyx
        · simp [h1, h2] at hxy hyx
          have hcd : c = d := by
            have h3 : c.toNat = d.toNat := le_antisymm (le_of_not_lt h2) (le_of_not_lt h1)
            exact Char.ext (UInt32.ext h3)
          rw [hcd, ih ds hxy hyx]

lemma localeCompareSign_ne_zero {a b : String} (h : a ≠ b) :
    localeCompareSign a b ≠ 0 := by
  unfold localeCompareSign
  by_cases h1 : lexLtChars a.data b.data
  · simp [h1]
  · by_cases h2 : lexLtChars b.data a.data
    · simp [h1, h2]
    · exact absurd (String.ext (lexLtChars_antisymm a.data b.data
        (Bool.not_eq_true _ ▸ eq_false_of_ne_true (fun hh => h1 hh))
        (Bool.not_eq_true _ ▸ eq_false_of_ne_true (fun hh => h2 hh)))) h

lemma lexLtChars_asymm : ∀ (x y : List Char),
    lexLtChars x y = true → lexLtChars y x = true → False := by
  intro x
  induction x with
  | nil =>
    intro y hxy hyx
    cases y with
    | nil => simp [lexLtChars] at hxy
    | cons d ds => simp [lexLtChars] at hyx
  | cons c cs ih =>
    intro y hxy hyx
    cases y with
    | nil => simp [lexLtChars] at hxy
    | cons d ds =>
      simp only [lexLtChars] at hxy hyx
      by_cases hcd : c.toNat < d.toNat
      · simp [hcd, Nat.lt_asymm hcd] at hyx
      · by_cases hdc : d.toNat < c.toNat
        · simp [hcd, hdc] at hxy
        · simp [hcd, hdc] at hxy hyx
          exact ih ds hxy hyx

lemma localeCompareSign_asymm (a b : String) :
    localeCompareSign a b < 0 ↔ 0 < localeCompareSign b a := by
  unfold localeCompareSign
  by_cases h1 : lexLtChars a.data b.data
  · have h2 : lexLtChars b.data a.data = false := by
      by_contra hc
      exact lexLtChars_asymm a.data b.data h1 (Bool.of_not_eq_false hc)
    simp [h1, h2]
  · by_cases h2 : lexLtChars b.data a.data
    · simp [h1, h2]
    · simp [h1, h2]

/-- Claim C7: for every pair of distinct tokens, non-strict ordering returns the same
`token0` (the canonically smaller token) regardless of argument order, `zeroForOne`
is true iff the first argument canonically precedes the second, and the
caller-supplied attribute values are permuted together with their token. -/
theorem tokenOrdering_nonstrict_symmetric {A : Type} (a b : String) (pa pb : Option A)
    (h : a ≠ b) :
    ∃ r s : TokenOrderingResult A,
      getTokenOrdering a b false pa pb = Except.ok r ∧
      getTokenOrdering b a false pb pa = Except.ok s ∧
      r.token0 = s.token0 ∧ r.token1 = s.token1 ∧
      (r.zeroForOne = true ↔ compareTokens a b < 0) ∧
      (s.zeroForOne = true ↔ compareTokens b a < 0) ∧
      r.token0 = (if compareTokens a b < 0 then a else b) ∧
      r.token0Attributes = (if compareTokens a b < 0 then pa else pb) ∧
      r.token1Attributes = (if compareTokens a b < 0 then pb else pa) ∧
      s.token0Attributes = r.token0Attributes ∧
      s.token1Attributes = r.token1Attributes := by
  by_cases hab : compareTokens a b < 0
  · have hba : ¬ compareTokens b a < 0 := by
      intro hc
      have h1 : 0 < compareTokens b a := (localeCompareSign_asymm a b).mp hab
      exact absurd hc (not_lt_of_gt h1)
    refine ⟨{ token0 := a, token1 := b, zeroForOne := true
              token0Attributes := pa, token1Attributes := pb },
            { token0 := a, token1 := b, zeroForOne := false
              token0Attributes := pa, token1Attributes := pb }, ?_, ?_, ?_⟩
    · simp [getTokenOrdering, hab]
    · simp [getTokenOrdering, hba]
    · simp [hab, hba]
  · have hne : compareTokens a b ≠ 0 := localeCompareSign_ne_zero h
    have hpos : 0 < compareTokens a b := lt_of_le_of_ne (le_of_not_lt hab) (Ne.symm hne)
    have hba : compareTokens b a < 0 := (localeCompareSign_asymm b a).mpr hpos
    refine ⟨{ token0 := b, token1 := a, zeroForOne := false
              token0Attributes := pb, token1Attributes := pa },
            { token0 := b, token1 := a, zeroForOne := true
              token0Attributes := pb, token1Attributes := pa }, ?_, ?_, ?_⟩
    · simp [getTokenOrdering, hab]
    · simp [getTokenOrdering, hba]
    · simp [hab, hba]

/-- Witness for C7 at a concrete out-of-order pair: the attribute values follow
their token, not their original argument position. -/
theorem tokenOrdering_nonstrict_symmetric_witness :
    ∃ r s : TokenOrderingResult ℕ,
      getTokenOrdering "GUSDC|Unit|none|none" "GALA|Unit|none|none" false
        (some 1) (some 2) = Except.ok r ∧
      getTokenOrdering "GALA|Unit|none|none" "GUSDC|Unit|none|none" false
        (some 2) (some 1) = Except.ok s ∧
      r.token0 = s.token0 ∧ r.token1 = s.token1 ∧
      (r.zeroForOne = true ↔
        compareTokens "GUSDC|Unit|none|none" "GALA|Unit|none|none" < 0) ∧
      (s.zeroForOne = true ↔
        compareTokens "GALA|Unit|none|none" "GUSDC|Unit|none|none" < 0) ∧
      r.token0 = (if compareTokens "GUSDC|Unit|none|none" "GALA|Unit|none|none" < 0 then
        "GUSDC|Unit|none|none" else "GALA|Unit|none|none") ∧
      r.token0Attributes =
        (if compareTokens "GUSDC|Unit|none|none" "GALA|Unit|none|none" < 0 then
          some 1 else some 2) ∧
      r.token1Attributes =
        (if compareTokens "GUSDC|Unit|none|none" "GALA|Unit|none|none" < 0 then
          some 2 else some 1) ∧
      s.token0Attributes = r.token0Attributes ∧
      s.token1Attributes = r.token1Attributes :=
  tokenOrdering_nonstrict_symmetric "GUSDC|Unit|none|none" "GALA|Unit|none|none"
    (some 1) (some 2) (by decide)

/-- Claim C8: with `assertCorrectness = true`, `getTokenOrdering` returns the
arguments unchanged when the first canonically precedes the second, and throws
`INCORRECT_TOKEN_ORDERING` exactly when it does not. -/
theorem tokenOrdering_strict_exact {A : Type} (a b : String) (pa pb : Option A) :
    (compareTokens a b < 0 →
      getTokenOrdering a b true pa pb = Except.ok
        { token0 := a, token1 := b, zeroForOne := true
          token0Attributes := pa, token1Attributes := pb }) ∧
    (¬ compareTokens a b < 0 →
      getTokenOrdering a b true pa pb = Except.error (incorrectTokenOrderingError a b) ∧
      (incorrectTokenOrderingError a b).code = "INCORRECT_TOKEN_ORDERING") := by
  constructor
  · intro hab
    simp [getTokenOrdering, hab]
  · intro hab
    constructor
    · simp [getTokenOrdering, hab]
    · rfl

/-- Witness for C8 at concrete inputs: the correctly-ordered pair succeeds
unchanged, the reversed pair throws. -/
theorem tokenOrdering_strict_exact_witness :
    getTokenOrdering "GALA" "GUSDC" true (some 1) (some 2) = Except.ok
      { token0 := "GALA", token1 := "GUSDC", zeroForOne := true
        token0Attributes := some 1, token1Attributes := (some 2 : Option ℕ) } ∧
    getTokenOrdering "GUSDC" "GALA" true (some 1) (some 2) =
      Except.error (incorrectTokenOrderingError "GUSDC" "GALA") :=
  ⟨(tokenOrdering_strict_exact "GALA" "GUSDC" (some 1) (some 2)).1 (by decide),
   ((tokenOrdering_strict_exact "GUSDC" "GALA" (some 1) (some 2)).2 (by decide)).1⟩

/-!
The Outcome Registry, from `src/classes/transaction_waiter.ts` (`TransactionWaiter`).
The JS promise machinery is embedded explicitly: the registry map
`promiseInfoForTxId` becomes an association list `live`, the set of pending
`setTimeout` timers becomes `timers`, and each call to a stored promise's
`resolve`/`reject` appends to the `settled` log, so settlement multiplicity is
observable in the state.
-/

namespace TransactionWaiter

/-- The best-effort result shape a transaction promise resolves with. -/
structure TxResult where
  txId : String
  transactionHash : String
  Data : List (String × String)
  deriving DecidableEq, Repr

/-- A settlement of a registered transaction's promise. -/
inductive Outcome where
  | resolved (r : TxResult)
  | rejected (e : GSwapSDKError)
  deriving DecidableEq, Repr

/-- The per-transaction registry entry (the JS `promiseInfo` record minus the
promise callbacks, which are represented by the settlement log). -/
structure Entry where
  waited : Bool
  deriving DecidableEq, Repr

/-- The registry state. -/
structure WaiterState where
  enabled : Bool
  live : List (String × Entry)
  timers : List String
  settled : List (String × Outcome)
  deriving DecidableEq, Repr

/-- The freshly constructed waiter: disabled, no entries. -/
def WaiterState.initial : WaiterState :=
  { enabled := false, live := [], timers := [], settled := [] }

/-- Remove the entry for a transaction id from the registry map. -/
def eraseKey (txId : String) (l : List (String × Entry)) : List (String × Entry) :=
  l.filter (fun kv => !(kv.1 == txId))

/-- Remove a pending timer (models `clearTimeout` or the timer firing). -/
def eraseTimer (txId : String) (l : List String) : List String :=
  l.filter (fun t => !(t == txId))

/-- Models `setEnabled`: on disable, every live entry's timer is cleared, its
promise is rejected with a `TRANSACTION_WAIT_FAILED` error carrying the message
"Transaction waiter disabled", and the registry map is cleared. -/
def setEnabled (enabled : Bool) (s : WaiterState) : WaiterState :=
  if enabled then { s with enabled := true }
  else
    { enabled := false
      live := []
      timers := s.timers.filter (fun t => (s.live.lookup t).isNone)
      settled := s.settled ++ s.live.map (fun kv =>
        (kv.1, Outcome.rejected (transactionWaitFailedError kv.1
          [("message", "Transaction waiter disabled")]))) }

/-- Models `registerTxId`: a live duplicate id throws
`TRANSACTION_ID_ALREADY_REGISTERED`; a disabled waiter returns silently without
creating an entry or starting a timer; otherwise a fresh unawaited entry is
created and its timeout timer started. -/
def registerTxId (txId : String) (timeoutMs : ℕ) (s : WaiterState) :
    Except GSwapSDKError WaiterState :=
  if (s.live.lookup txId).isSome then
    .error { message := "Transaction ID is already registered"
             code := "TRANSACTION_ID_ALREADY_REGISTERED"
             details := [("txId", .str txId)] }
  else if !s.enabled then
    .ok s
  else
    .ok { s with live := (txId, { waited := false }) :: s.live
                 timers := txId :: s.timers }

/-- Models the `setTimeout` callback registered by `registerTxId`: the timer is no
longer pending after firing; if the entry is still live, an awaited entry's
promise is rejected with `TRANSACTION_WAIT_TIMEOUT` while an unawaited one is
resolved with a best-effort echo of the tracking id, and the entry is deleted. -/
def timeoutFire (txId : String) (s : WaiterState) : WaiterState :=
  let s1 := { s with timers := eraseTimer txId s.timers }
  match s1.live.lookup txId with
  | none => s1
  | some e =>
    { s1 with
      live := eraseKey txId s1.live
      settled := s1.settled ++
        [(txId, if e.waited then Outcome.rejected (transactionWaitTimeoutError txId)
                else Outcome.resolved { txId := txId, transactionHash := txId, Data := [] })] }

/-- Models `wait`: an unregistered id throws `TRANSACTION_ID_NOT_REGISTERED`;
otherwise the live entry is marked awaited (and the caller receives its promise). -/
def wait (txId : String) (s : WaiterState) : Except GSwapSDKError WaiterState :=
  match s.live.lookup txId with
  | none =>
    .error { message := "Transaction ID is not registered for waiting"
             code := "TRANSACTION_ID_NOT_REGISTERED"
             details := [("txId", .str txId)] }
  | some _ =>
    .ok { s with live := s.live.map (fun kv =>
            if kv.1 == txId then (kv.1, { waited := true }) else kv) }

/-- The payload of a `PROCESSED` confirmation event. -/
structure NotifyData where
  transactionId : String
  Data : List (String × String)
  deriving DecidableEq, Repr

/-- Models `notifySuccess`: a no-op when the id has no live entry; otherwise the
timer is cleared, the promise resolves with the remote transaction hash and
payload (whether or not the entry was awaited), and the entry is deleted. -/
def notifySuccess (txId : String) (data : NotifyData) (s : WaiterState) : WaiterState :=
  match s.live.lookup txId with
  | none => s
  | some _ =>
    { s with
      timers := eraseTimer txId s.timers
      live := eraseKey txId s.live
      settled := s.settled ++ [(txId, Outcome.resolved
        { txId := txId, transactionHash := data.transactionId, Data := data.Data })] }

/-- Models `notifyFailure`: a no-op when the id has no live entry; otherwise the
timer is cleared, an awaited entry's promise is rejected with
`TRANSACTION_WAIT_FAILED` carrying the remote detail while an unawaited one is
resolved with a best-effort echo, and the entry is deleted. -/
def notifyFailure (txId : String) (detail : List (String × String)) (s : WaiterState) :
    WaiterState :=
  match s.live.lookup txId with
  | none => s
  | some e =>
    { s with
      timers := eraseTimer txId s.timers
      live := eraseKey txId s.live
      settled := s.settled ++
        [(txId, if e.waited then Outcome.rejected (transactionWaitFailedError txId detail)
                else Outcome.resolved { txId := txId, transactionHash := txId, Data := [] })] }

/-- The four independently-scheduled events that can hit a registered id. -/
inductive WEvent where
  | wait
  | notifySuccess (data : NotifyData)
  | notifyFailure (detail : List (String × String))
  | timeout
  deriving DecidableEq, Repr

/-- Whether an event is a terminal transition for a live entry. -/
def WEvent.isTerminal : WEvent → Bool
  | .wait => false
  | _ => true

/-- One scheduler step for a single tracking id: a failed `wait` raises to the
caller and leaves the registry unchanged; the timeout callback only runs while
its timer is pending. -/
def stepEvent (txId : String) (s : WaiterState) : WEvent → WaiterState
  | .wait =>
    match wait txId s with
    | .ok s1 => s1
    | .error _ => s
  | .notifySuccess data => notifySuccess txId data s
  | .notifyFailure detail => notifyFailure txId detail s
  | .timeout => if s.timers.contains txId then timeoutFire txId s else s

/-- Run a sequence of events for one tracking id. -/
def runEvents (txId : String) (s : WaiterState) : List WEvent → WaiterState
  | [] => s
  | e :: es => runEvents txId (stepEvent txId s e) es

/-- How many times the id's promise has been settled (resolve or reject calls). -/
def settledCount (txId : String) (l : List (String × Outcome)) : ℕ :=
  (l.filter (fun kv => kv.1 == txId)).length

lemma settledCount_append_self (txId : String) (l : List (String × Outcome))
    (o : Outcome) : settledCount txId (l ++ [(txId, o)]) = settledCount txId l + 1 := by
  simp [settledCount, List.filter_append]

/-- Claim C1: on a live entry, a timeout or a FAILED notification before any call
to `wait` resolves the promise successfully with a best-effort result echoing the
tracking id (transactionHash equal to the id, empty Data); after `wait`, a
timeout rejects with `TRANSACTION_WAIT_TIMEOUT` and a FAILED notification
rejects with `TRANSACTION_WAIT_FAILED` carrying the remote detail. -/
theorem unawaited_resolution_policy (s : WaiterState) (txId : String) (e : Entry)
    (detail : List (String × String)) (hlive : s.live.lookup txId = some e) :
    (e.waited = false →
      (timeoutFire txId s).settled =
        s.settled ++ [(txId, Outcome.resolved
          { txId := txId, transactionHash := txId, Data := [] })] ∧
      (notifyFailure txId detail s).settled =
        s.settled ++ [(txId, Outcome.resolved
          { txId := txId, transactionHash := txId, Data := [] })]) ∧
    (e.waited = true →
      (timeoutFire txId s).settled =
        s.settled ++ [(txId, Outcome.rejected (transactionWaitTimeoutError txId))] ∧
      (notifyFailure txId detail s).settled =
        s.settled ++ [(txId, Outcome.rejected (transactionWaitFailedError txId detail))]) ∧
    (transactionWaitTimeoutError txId).code = "TRANSACTION_WAIT_TIMEOUT" ∧
    (transactionWaitFailedError txId detail).code = "TRANSACTION_WAIT_FAILED" := by
  refine ⟨?_, ?_, rfl, rfl⟩
  · intro hw
    constructor <;> simp [timeoutFire, notifyFailure, hlive, hw]
  · intro hw
    constructor <;> simp [timeoutFire, notifyFailure, hlive, hw]

/-- Witness for C1 on a concrete two-state scenario: one unawaited entry and one
awaited entry. -/
theorem unawaited_resolution_policy_witness :
    ((TransactionWaiter.Entry.mk false).waited = false →
      (timeoutFire "tx1" { enabled := true, live := [("tx1", { waited := false })]
                           timers := ["tx1"], settled := [] }).settled =
        [] ++ [("tx1", Outcome.resolved
          { txId := "tx1", transactionHash := "tx1", Data := [] })] ∧
      (notifyFailure "tx1" [("message", "boom")]
          { enabled := true, live := [("tx1", { waited := false })]
            timers := ["tx1"], settled := [] }).settled =
        [] ++ [("tx1", Outcome.resolved
          { txId := "tx1", transactionHash := "tx1", Data := [] })]) ∧
    ((TransactionWaiter.Entry.mk false).waited = true →
      (timeoutFire "tx1" { enabled := true, live := [("tx1", { waited := false })]
                           timers := ["tx1"], settled := [] }).settled =
        [] ++ [("tx1", Outcome.rejected (transactionWaitTimeoutError "tx1"))] ∧
      (notifyFailure "tx1" [("message", "boom")]
          { enabled := true, live := [("tx1", { waited := false })]
            timers := ["tx1"], settled := [] }).settled =
        [] ++ [("tx1", Outcome.rejected
          (transactionWaitFailedError "tx1" [("message", "boom")]))]) ∧
    (transactionWaitTimeoutError "tx1").code = "TRANSACTION_WAIT_TIMEOUT" ∧
    (transactionWaitFailedError "tx1" [("message", "boom")]).code =
      "TRANSACTION_WAIT_FAILED" :=
  unawaited_resolution_policy
    { enabled := true, live := [("tx1", { waited := false })]
      timers := ["tx1"], settled := [] }
    "tx1" { waited := false } [("message", "boom")] (by simp [List.lookup])

/-- The single-id invariant while an entry is live: exactly one registry entry for
the id, its timer pending, no settlement yet. -/
def LiveInv (txId : String) (s : WaiterState) : Prop :=
  (∃ w, s.live = [(txId, { waited := w })]) ∧ s.timers = [txId] ∧
    settledCount txId s.settled = 0

/-- The single-id invariant after the terminal transition: entry and timer gone,
settled exactly once. -/
def DeadInv (txId : String) (s : WaiterState) : Prop :=
  s.live = [] ∧ s.timers = [] ∧ settledCount txId s.settled = 1

lemma step_from_live {txId : String} {s : WaiterState} (h : LiveInv txId s)
    (e : WEvent) :
    (e.isTerminal = true → DeadInv txId (stepEvent txId s e)) ∧
    (e.isTerminal = false → LiveInv txId (stepEvent txId s e)) := by
  obtain ⟨⟨w, hl⟩, ht, hc⟩ := h
  cases e with
  | wait =>
    refine ⟨fun hterm => by simp [WEvent.isTerminal] at hterm, fun _ => ?_⟩
    refine ⟨⟨true, ?_⟩, ?_, ?_⟩ <;>
      simp [stepEvent, wait, hl, ht, hc]
  | notifySuccess data =>
    refine ⟨fun _ => ⟨?_, ?_, ?_⟩, fun hterm => by simp [WEvent.isTerminal] at hterm⟩
    · simp [stepEvent, notifySuccess, eraseKey, hl]
    · simp [stepEvent, notifySuccess, eraseTimer, hl, ht]
    · simp [stepEvent, notifySuccess, hl, settledCount_append_self, hc]
  | notifyFailure detail =>
    refine ⟨fun _ => ⟨?_, ?_, ?_⟩, fun hterm => by simp [WEvent.isTerminal] at hterm⟩
    · simp [stepEvent, notifyFailure, eraseKey, hl]
    · simp [stepEvent, notifyFailure, eraseTimer, hl, ht]
    · simp [stepEvent, notifyFailure, hl, settledCount_append_self, hc]
  | timeout =>
    refine ⟨fun _ => ⟨?_, ?_, ?_⟩, fun hterm => by simp [WEvent.isTerminal] at hterm⟩
    · simp [stepEvent, timeoutFire, eraseKey, eraseTimer, hl, ht]
    · simp [stepEvent, timeoutFire, eraseKey, eraseTimer, hl, ht]
    · simp [stepEvent, timeoutFire, eraseKey, eraseTimer, hl, ht,
        settledCount_append_self, hc]

lemma step_from_dead {txId : String} {s : WaiterState} (h : DeadInv txId s)
    (e : WEvent) : stepEvent txId s e = s := by
  obtain ⟨hl, ht, _⟩ := h
  cases e <;> simp [stepEvent, wait, notifySuccess, notifyFailure, hl, ht]

lemma run_from_dead {txId : String} (es : List WEvent) :
    ∀ s : WaiterState, DeadInv txId s → runEvents txId s es = s := by
  induction es with
  | nil => intro s _; rfl
  | cons e es ih =>
    intro s h
    simp only [runEvents, step_from_dead h e]
    exact ih s h

lemma run_from_live {txId : String} (es : List WEvent) :
    ∀ s : WaiterState, LiveInv txId s →
      (es.any WEvent.isTerminal = true → DeadInv txId (runEvents txId s es)) ∧
      (es.any WEvent.isTerminal = false → LiveInv txId (runEvents txId s es)) := by
  induction es with
  | nil =>
    intro s h
    exact ⟨fun hterm => by simp at hterm, fun _ => h⟩
  | cons e es ih =>
    intro s h
    cases hterm : e.isTerminal with
    | true =>
      have hdead : DeadInv txId (stepEvent txId s e) := (step_from_live h e).1 hterm
      constructor
      · intro _
        simpa [runEvents, run_from_dead es _ hdead] using hdead
      · intro hall
        simp [List.any_cons, hterm] at hall
    | false =>
      have hlive : LiveInv txId (stepEvent txId s e) := (step_from_live h e).2 hterm
      constructor
      · intro hany
        simp only [List.any_cons, hterm, Bool.false_or] at hany
        exact (ih _ hlive).1 hany
      · intro hall
        simp only [List.any_cons, hterm, Bool.false_or] at hall
        exact (ih _ hlive).2 hall

/-- Claim C2: after registration on a fresh enabled waiter, for every sequence of
wait / notify-success / notify-failure / timeout events on that id, the promise
settles at most once; whenever a terminal event occurs the promise settles
exactly once and the registry entry is removed; and once the entry is gone every
further event is a strict no-op on the registry. -/
theorem registry_settles_exactly_once (txId : String) (timeoutMs : ℕ)
    (es : List WEvent) (s₀ : WaiterState)
    (hreg : registerTxId txId timeoutMs (setEnabled true WaiterState.initial) =
      Except.ok s₀) :
    settledCount txId (runEvents txId s₀ es).settled ≤ 1 ∧
    (es.any WEvent.isTerminal = true →
      settledCount txId (runEvents txId s₀ es).settled = 1 ∧
      (runEvents txId s₀ es).live.lookup txId = none) ∧
    ((runEvents txId s₀ es).live.lookup txId = none →
      ∀ e, stepEvent txId (runEvents txId s₀ es) e = runEvents txId s₀ es) := by
  have hs₀ : s₀ = { enabled := true, live := [(txId, { waited := false })]
                    timers := [txId], settled := [] } := by
    simp [registerTxId, setEnabled, WaiterState.initial] at hreg
    exact hreg.symm
  subst hs₀
  have hlive : LiveInv txId { enabled := true, live := [(txId, { waited := false })]
                              timers := [txId], settled := [] } :=
    ⟨⟨false, rfl⟩, rfl, rfl⟩
  have hrun := run_from_live es _ hlive
  cases hterm : es.any WEvent.isTerminal with
  | true =>
    obtain ⟨hl, ht, hc⟩ := hrun.1 hterm
    refine ⟨le_of_eq hc, fun _ => ⟨hc, by simp [hl]⟩, fun _ e => ?_⟩
    exact step_from_dead ⟨hl, ht, hc⟩ e
  | false =>
    obtain ⟨⟨w, hl⟩, ht, hc⟩ := hrun.2 hterm
    refine ⟨by simp [hc], fun habs => ?_, fun hnone e => ?_⟩
    · simp at habs
    · rw [hl] at hnone
      simp [List.lookup] at hnone

/-- Witness for C2 with a concrete trace: register, wait, then a FAILED
notification followed by a late timeout. -/
theorem registry_settles_exactly_once_witness :
    settledCount "tx9" (runEvents "tx9"
      { enabled := true, live := [("tx9", { waited := false })]
        timers := ["tx9"], settled := [] }
      [WEvent.wait, WEvent.notifyFailure [("message", "boom")],
        WEvent.timeout]).settled ≤ 1 ∧
    (([WEvent.wait, WEvent.notifyFailure [("message", "boom")],
        WEvent.timeout].any WEvent.isTerminal) = true →
      settledCount "tx9" (runEvents "tx9"
        { enabled := true, live := [("tx9", { waited := false })]
          timers := ["tx9"], settled := [] }
        [WEvent.wait, WEvent.notifyFailure [("message", "boom")],
          WEvent.timeout]).settled = 1 ∧
      (runEvents "tx9"
        { enabled := true, live := [("tx9", { waited := false })]
          timers := ["tx9"], settled := [] }
        [WEvent.wait, WEvent.notifyFailure [("message", "boom")],
          WEvent.timeout]).live.lookup "tx9" = none) ∧
    ((runEvents "tx9"
        { enabled := true, live := [("tx9", { waited := false })]
          timers := ["tx9"], settled := [] }
        [WEvent.wait, WEvent.notifyFailure [("message", "boom")],
          WEvent.timeout]).live.lookup "tx9" = none →
      ∀ e, stepEvent "tx9" (runEvents "tx9"
        { enabled := true, live := [("tx9", { waited := false })]
          timers := ["tx9"], settled := [] }
        [WEvent.wait, WEvent.notifyFailure [("message", "boom")], WEvent.timeout]) e =
        runEvents "tx9"
          { enabled := true, live := [("tx9", { waited := false })]
            timers := ["tx9"], settled := [] }
          [WEvent.wait, WEvent.notifyFailure [("message", "boom")], WEvent.timeout]) :=
  registry_settles_exactly_once "tx9" 3000
    [WEvent.wait, WEvent.notifyFailure [("message", "boom")], WEvent.timeout] _
    (by simp [registerTxId, setEnabled, WaiterState.initial])

/-- Claim C5: disabling the waiter with outstanding entries clears every pending
timer, rejects every outstanding promise (one rejection per entry, with code
`TRANSACTION_WAIT_FAILED`, regardless of its awaited state), and leaves the
registry map empty. -/
theorem disable_rejects_all_outstanding (s : WaiterState)
    (htimers : ∀ t ∈ s.timers, (s.live.lookup t).isSome = true) :
    (setEnabled false s).live = [] ∧
    (setEnabled false s).timers = [] ∧
    (setEnabled false s).settled = s.settled ++ s.live.map (fun kv =>
      (kv.1, Outcome.rejected (transactionWaitFailedError kv.1
        [("message", "Transaction waiter disabled")]))) ∧
    (s.live.map (fun kv =>
      (kv.1, Outcome.rejected (transactionWaitFailedError kv.1
        [("message", "Transaction waiter disabled")])))).length = s.live.length ∧
    ∀ kv ∈ s.live, (transactionWaitFailedError kv.1
      [("message", "Transaction waiter disabled")]).code = "TRANSACTION_WAIT_FAILED" := by
  refine ⟨rfl, ?_, rfl, by simp, fun kv _ => rfl⟩
  simp only [setEnabled, if_neg (by simp : ¬ (false : Bool) = true)]
  rw [List.filter_eq_nil_iff]
  intro t hmem
  have h1 := htimers t hmem
  cases hl : List.lookup t s.live with
  | none => rw [hl] at h1; simp at h1
  | some e => simp [hl]

/-- Witness for C5 on a registry with two outstanding entries, one awaited and
one not. -/
theorem disable_rejects_all_outstanding_witness :
    (setEnabled false
      { enabled := true, live := [("a", { waited := true }), ("b", { waited := false })]
        timers := ["a", "b"], settled := [] }).live = [] ∧
    (setEnabled false
      { enabled := true, live := [("a", { waited := true }), ("b", { waited := false })]
        timers := ["a", "b"], settled := [] }).timers = [] ∧
    (setEnabled false
      { enabled := true, live := [("a", { waited := true }), ("b", { waited := false })]
        timers := ["a", "b"], settled := [] }).settled =
      [] ++ [("a", TransactionWaiter.Entry.mk true),
             ("b", TransactionWaiter.Entry.mk false)].map (fun kv =>
        (kv.1, Outcome.rejected (transactionWaitFailedError kv.1
          [("message", "Transaction waiter disabled")]))) ∧
    ([("a", TransactionWaiter.Entry.mk true),
      ("b", TransactionWaiter.Entry.mk false)].map (fun kv =>
        (kv.1, Outcome.rejected (transactionWaitFailedError kv.1
          [("message", "Transaction waiter disabled")])))).length =
      [("a", TransactionWaiter.Entry.mk true),
       ("b", TransactionWaiter.Entry.mk false)].length ∧
    ∀ kv ∈ [("a", TransactionWaiter.Entry.mk true),
            ("b", TransactionWaiter.Entry.mk false)],
      (transactionWaitFailedError kv.1
        [("message", "Transaction waiter disabled")]).code = "TRANSACTION_WAIT_FAILED" :=
  disable_rejects_all_outstanding
    { enabled := true, live := [("a", { waited := true }), ("b", { waited := false })]
      timers := ["a", "b"], settled := [] }
    (by decide)

/-- Claim C10: on a disabled waiter, registering an id with no live entry returns
silently without creating an entry or starting a timer, registering it twice
raises no error either, and a later `wait` on that id throws
`TRANSACTION_ID_NOT_REGISTERED`. -/
theorem register_disabled_silent (s : WaiterState) (txId : String) (t₁ t₂ : ℕ)
    (hdis : s.enabled = false) (hno : s.live.lookup txId = none) :
    registerTxId txId t₁ s = Except.ok s ∧
    (registerTxId txId t₁ s).bind (fun s1 => registerTxId txId t₂ s1) = Except.ok s ∧
    ∃ e, wait txId s = Except.error e ∧ e.code = "TRANSACTION_ID_NOT_REGISTERED" := by
  have h1 : registerTxId txId t₁ s = Except.ok s := by
    simp [registerTxId, hdis, hno]
  have h2 : registerTxId txId t₂ s = Except.ok s := by
    simp [registerTxId, hdis, hno]
  refine ⟨h1, ?_, ?_⟩
  · rw [h1]
    simpa [Except.bind] using h2
  · refine ⟨{ message := "Transaction ID is not registered for waiting"
              code := "TRANSACTION_ID_NOT_REGISTERED"
              details := [("txId", .str txId)] }, ?_, rfl⟩
    simp [wait, hno]

/-- Witness for C10 on the initial (disabled) waiter. -/
theorem register_disabled_silent_witness :
    registerTxId "tx5" 1000 WaiterState.initial = Except.ok WaiterState.initial ∧
    (registerTxId "tx5" 1000 WaiterState.initial).bind
      (fun s1 => registerTxId "tx5" 2000 s1) = Except.ok WaiterState.initial ∧
    ∃ e, wait "tx5" WaiterState.initial = Except.error e ∧
      e.code = "TRANSACTION_ID_NOT_REGISTERED" :=
  register_disabled_silent WaiterState.initial "tx5" 1000 2000 rfl rfl

end TransactionWaiter

/-!
The Quote Aggregator, from `src/classes/quoting.ts`. The per-tier request
`getSingleQuote` goes through HTTP and the remote pricing oracle; its outcome
for each fee tier is therefore a parameter of the embedding (`singleQuote`).
`Promise.all` over the per-tier tasks is embedded sequentially in the fixed
iteration order of `allFees`.
-/

/-- The fee tiers of `src/types/fees.ts` (`FEE_TIER`). -/
inductive FEE_TIER where
  | PERCENT_00_05
  | PERCENT_00_30
  | PERCENT_01_00
  deriving DecidableEq, Repr

/-- The numeric value of a fee tier. -/
def FEE_TIER.toInt : FEE_TIER → ℤ
  | .PERCENT_00_05 => 500
  | .PERCENT_00_30 => 3000
  | .PERCENT_01_00 => 10000

namespace Quoting

/-- The fields of a per-tier `GetQuoteResult` that the aggregation logic
inspects; the remaining fields (prices, raw signed amounts) are carried verbatim
from the per-tier response and never examined by the selection. -/
structure GetQuoteResult where
  inTokenAmount : ℚ
  outTokenAmount : ℚ
  feeTier : FEE_TIER
  deriving DecidableEq, Repr

/-- The outcome of one per-tier `getSingleQuote` request: a quote, or a thrown
`GSwapSDKError`. -/
inductive TierOutcome where
  | ok (q : GetQuoteResult)
  | err (e : GSwapSDKError)
  deriving DecidableEq, Repr

/-- The fixed fan-out order `[FEE_TIER.PERCENT_00_05, FEE_TIER.PERCENT_00_30,
FEE_TIER.PERCENT_01_00]` used by both quote functions. -/
def allFees : List FEE_TIER :=
  [FEE_TIER.PERCENT_00_05, FEE_TIER.PERCENT_00_30, FEE_TIER.PERCENT_01_00]

/-- The error codes treated as "no pool / no liquidity for this tier". -/
def isPoolAbsentCode (code : String) : Bool :=
  code == "CONFLICT" || code == "OBJECT_NOT_FOUND"

/-- Fan a quote request across the given fee tiers: a tier failing with a
pool-absent code is silently dropped, any other failure is propagated, and
successful quotes are collected in iteration order. -/
def collectTierQuotes (singleQuote : FEE_TIER → TierOutcome) :
    List FEE_TIER → Except GSwapSDKError (List GetQuoteResult)
  | [] => .ok []
  | f :: fs =>
    match singleQuote f with
    | .ok q => (collectTierQuotes singleQuote fs).map (fun rest => q :: rest)
    | .err e =>
      if isPoolAbsentCode e.code then collectTierQuotes singleQuote fs
      else .error e

/-- Models the `reduce` of `quoteExactInput`: keep the quote with the strictly
greater output amount, so ties keep the earlier tier. -/
def bestByOutput : GetQuoteResult → List GetQuoteResult → GetQuoteResult
  | best, [] => best
  | best, current :: rest =>
    bestByOutput (if best.outTokenAmount < current.outTokenAmount then current else best)
      rest

/-- Models the `reduce` of `quoteExactOutput`: keep the quote with the strictly
smaller input amount, so ties keep the earlier tier. -/
def bestByInput : GetQuoteResult → List GetQuoteResult → GetQuoteResult
  | best, [] => best
  | best, current :: rest =>
    bestByInput (if current.inTokenAmount < best.inTokenAmount then current else best)
      rest

/-- Models `Quoting.quoteExactInput`: validate the amount; with a fee tier given,
return that tier's quote verbatim; otherwise fan out over `allFees`, drop
pool-absent tiers, fail with `NO_POOL_AVAILABLE` when every tier is absent, and
otherwise return the quote with the greatest output amount. -/
def quoteExactInput (tokenIn tokenOut : String) (amountIn : BN)
    (fee : Option FEE_TIER) (singleQuote : FEE_TIER → TierOutcome) :
    Except GSwapSDKError GetQuoteResult := do
  let _ ← validateNumericAmount amountIn "amountIn"
  match fee with
  | some f =>
    match singleQuote f with
    | .ok q => .ok q
    | .err e => .error e
  | none => do
    let quotes ← collectTierQuotes singleQuote allFees
    match quotes with
    | [] => .error (noPoolAvailableError tokenIn tokenOut none)
    | q :: rest => .ok (bestByOutput q rest)

/-- Models `Quoting.quoteExactOutput`: as `quoteExactInput`, selecting the quote
with the least input amount. -/
def quoteExactOutput (tokenIn tokenOut : String) (amountOut : BN)
    (fee : Option FEE_TIER) (singleQuote : FEE_TIER → TierOutcome) :
    Except GSwapSDKError GetQuoteResult := do
  let _ ← validateNumericAmount amountOut "amountOut"
  match fee with
  | some f =>
    match singleQuote f with
    | .ok q => .ok q
    | .err e => .error e
  | none => do
    let quotes ← collectTierQuotes singleQuote allFees
    match quotes with
    | [] => .error (noPoolAvailableError tokenIn tokenOut none)
    | q :: rest => .ok (bestByInput q rest)

end Quoting

namespace Quoting

lemma validateNumericAmount_pos (q : ℚ) (p : String) (h : 0 < q) :
    validateNumericAmount (BN.fin q) p = Except.ok () := by
  simp [validateNumericAmount, BN.isFinite, BN.isZero, BN.isNegative, h.ne',
    not_lt.mpr h.le]

lemma bestByOutput_spec (best : GetQuoteResult) (l : List GetQuoteResult) :
    ∃ l₁ l₂, best :: l = l₁ ++ (bestByOutput best l) :: l₂ ∧
      (∀ y ∈ l₁, y.outTokenAmount < (bestByOutput best l).outTokenAmount) ∧
      (∀ y ∈ l₂, y.outTokenAmount ≤ (bestByOutput best l).outTokenAmount) := by
  induction l generalizing best with
  | nil => exact ⟨[], [], rfl, by simp, by simp⟩
  | cons c rest ih =>
    by_cases hbc : best.outTokenAmount < c.outTokenAmount
    · obtain ⟨l₁, l₂, hsplit, h₁, h₂⟩ := ih c
      have hout : bestByOutput best (c :: rest) = bestByOutput c rest := by
        simp [bestByOutput, hbc]
      have hall : ∀ y ∈ c :: rest,
          y.outTokenAmount ≤ (bestByOutput c rest).outTokenAmount := by
        intro y hy
        rw [hsplit] at hy
        rcases List.mem_append.mp hy with hm | hm
        · exact le_of_lt (h₁ y hm)
        · rcases List.mem_cons.mp hm with hm | hm
          · rw [hm]
          · exact h₂ y hm
      refine ⟨best :: l₁, l₂, ?_, ?_, ?_⟩
      · rw [hout, List.cons_append, ← hsplit]
      · intro y hy
        rcases List.mem_cons.mp hy with hm | hm
        · rw [hm, hout]
          exact lt_of_lt_of_le hbc (hall c (List.mem_cons_self c rest))
        · rw [hout]
          exact h₁ y hm
      · intro y hy
        rw [hout]
        exact h₂ y hy
    · obtain ⟨l₁, l₂, hsplit, h₁, h₂⟩ := ih best
      have hout : bestByOutput best (c :: rest) = bestByOutput best rest := by
        simp [bestByOutput, hbc]
      cases l₁ with
      | nil =>
        simp only [List.nil_append] at hsplit
        injection hsplit with hr hl₂
        refine ⟨[], c :: l₂, ?_, by simp, ?_⟩
        · rw [hout, List.nil_append, ← hr, ← hl₂]
        · intro y hy
          rcases List.mem_cons.mp hy with hm | hm
          · rw [hm, hout, ← hr]
            exact le_of_not_lt hbc
          · rw [hout]
            exact h₂ y hm
      | cons a l₁' =>
        rw [List.cons_append] at hsplit
        injection hsplit with ha hrest
        have hblt : best.outTokenAmount < (bestByOutput best rest).outTokenAmount := by
          have hmem := h₁ a (List.mem_cons_self a l₁')
          rwa [← ha] at hmem
        refine ⟨best :: c :: l₁', l₂, ?_, ?_, ?_⟩
        · rw [hout, List.cons_append, List.cons_append, ← hrest]
        · intro y hy
          rcases List.mem_cons.mp hy with hm | hm
          · rw [hm, hout]
            exact hblt
          · rcases List.mem_cons.mp hm with hm | hm
            · rw [hm, hout]
              exact lt_of_le_of_lt (le_of_not_lt hbc) hblt
            · rw [hout]
              exact h₁ y (List.mem_cons_of_mem a hm)
        · intro y hy
          rw [hout]
          exact h₂ y hy

lemma bestByInput_spec (best : GetQuoteResult) (l : List GetQuoteResult) :
    ∃ l₁ l₂, best :: l = l₁ ++ (bestByInput best l) :: l₂ ∧
      (∀ y ∈ l₁, (bestByInput best l).inTokenAmount < y.inTokenAmount) ∧
      (∀ y ∈ l₂, (bestByInput best l).inTokenAmount ≤ y.inTokenAmount) := by
  induction l generalizing best with
  | nil => exact ⟨[], [], rfl, by simp, by simp⟩
  | cons c rest ih =>
    by_cases hbc : c.inTokenAmount < best.inTokenAmount
    · obtain ⟨l₁, l₂, hsplit, h₁, h₂⟩ := ih c
      have hout : bestByInput best (c :: rest) = bestByInput c rest := by
        simp [bestByInput, hbc]
      have hall : ∀ y ∈ c :: rest,
          (bestByInput c rest).inTokenAmount ≤ y.inTokenAmount := by
        intro y hy
        rw [hsplit] at hy
        rcases List.mem_append.mp hy with hm | hm
        · exact le_of_lt (h₁ y hm)
        · rcases List.mem_cons.mp hm with hm | hm
          · rw [hm]
          · exact h₂ y hm
      refine ⟨best :: l₁, l₂, ?_, ?_, ?_⟩
      · rw [hout, List.cons_append, ← hsplit]
      · intro y hy
        rcases List.mem_cons.mp hy with hm | hm
        · rw [hm, hout]
          exact lt_of_le_of_lt (hall c (List.mem_cons_self c rest)) hbc
        · rw [hout]
          exact h₁ y hm
      · intro y hy
        rw [hout]
        exact h₂ y hy
    · obtain ⟨l₁, l₂, hsplit, h₁, h₂⟩ := ih best
      have hout : bestByInput best (c :: rest) = bestByInput best rest := by
        simp [bestByInput, hbc]
      cases l₁ with
      | nil =>
        simp only [List.nil_append] at hsplit
        injection hsplit with hr hl₂
        refine ⟨[], c :: l₂, ?_, by simp, ?_⟩
        · rw [hout, List.nil_append, ← hr, ← hl₂]
        · intro y hy
          rcases List.mem_cons.mp hy with hm | hm
          · rw [hm, hout, ← hr]
            exact le_of_not_lt hbc
          · rw [hout]
            exact h₂ y hm
      | cons a l₁' =>
        rw [List.cons_append] at hsplit
        injection hsplit with ha hrest
        have hblt : (bestByInput best rest).inTokenAmount < best.inTokenAmount := by
          have hmem := h₁ a (List.mem_cons_self a l₁')
          rwa [← ha] at hmem
        refine ⟨best :: c :: l₁', l₂, ?_, ?_, ?_⟩
        · rw [hout, List.cons_append, List.cons_append, ← hrest]
        · intro y hy
          rcases List.mem_cons.mp hy with hm | hm
          · rw [hm, hout]
            exact hblt
          · rcases List.mem_cons.mp hm with hm | hm
            · rw [hm, hout]
              exact lt_of_lt_of_le hblt (le_of_not_lt hbc)
            · rw [hout]
              exact h₁ y (List.mem_cons_of_mem a hm)
        · intro y hy
          rw [hout]
          exact h₂ y hy

/-- Claim C4: with no fee tier specified and at least one per-tier quote, exact-input
quoting returns the quote with the greatest output amount and exact-output quoting
the quote with the least input amount; every quote strictly before the selected
one in the tier iteration order is strictly worse, so ties keep the
first-encountered tier. -/
theorem quote_aggregation_selects_best (a : ℚ) (ha : 0 < a)
    (tokenIn tokenOut : String) (singleQuote : FEE_TIER → TierOutcome)
    (q : GetQuoteResult) (qs : List GetQuoteResult)
    (hq : collectTierQuotes singleQuote allFees = Except.ok (q :: qs)) :
    (∃ r l₁ l₂, quoteExactInput tokenIn tokenOut (BN.fin a) none singleQuote =
        Except.ok r ∧
      q :: qs = l₁ ++ r :: l₂ ∧
      (∀ y ∈ l₁, y.outTokenAmount < r.outTokenAmount) ∧
      (∀ y ∈ l₂, y.outTokenAmount ≤ r.outTokenAmount)) ∧
    (∃ r l₁ l₂, quoteExactOutput tokenIn tokenOut (BN.fin a) none singleQuote =
        Except.ok r ∧
      q :: qs = l₁ ++ r :: l₂ ∧
      (∀ y ∈ l₁, r.inTokenAmount < y.inTokenAmount) ∧
      (∀ y ∈ l₂, r.inTokenAmount ≤ y.inTokenAmount)) := by
  constructor
  · obtain ⟨l₁, l₂, hsplit, h₁, h₂⟩ := bestByOutput_spec q qs
    refine ⟨bestByOutput q qs, l₁, l₂, ?_, hsplit, h₁, h₂⟩
    simp [quoteExactInput, validateNumericAmount_pos a "amountIn" ha, hq,
      Bind.bind, Except.bind]
  · obtain ⟨l₁, l₂, hsplit, h₁, h₂⟩ := bestByInput_spec q qs
    refine ⟨bestByInput q qs, l₁, l₂, ?_, hsplit, h₁, h₂⟩
    simp [quoteExactOutput, validateNumericAmount_pos a "amountOut" ha, hq,
      Bind.bind, Except.bind]

/-- Witness for C4 on the spec's concrete scenario: tier one absent, tier two and
tier three quoting output 10 and 12 (inputs 22 and 18) for the same amount. -/
theorem quote_aggregation_selects_best_witness :
    (∃ r l₁ l₂, quoteExactInput "GALA" "GUSDC" (BN.fin 5) none
        (fun f => match f with
          | .PERCENT_00_05 => .err { message := "m", code := "CONFLICT", details := [] }
          | .PERCENT_00_30 => .ok { inTokenAmount := 22, outTokenAmount := 10
                                    feeTier := .PERCENT_00_30 }
          | .PERCENT_01_00 => .ok { inTokenAmount := 18, outTokenAmount := 12
                                    feeTier := .PERCENT_01_00 }) =
        Except.ok r ∧
      ({ inTokenAmount := 22, outTokenAmount := 10
         feeTier := .PERCENT_00_30 } : GetQuoteResult) ::
        [{ inTokenAmount := 18, outTokenAmount := 12, feeTier := .PERCENT_01_00 }] =
        l₁ ++ r :: l₂ ∧
      (∀ y ∈ l₁, y.outTokenAmount < r.outTokenAmount) ∧
      (∀ y ∈ l₂, y.outTokenAmount ≤ r.outTokenAmount)) ∧
    (∃ r l₁ l₂, quoteExactOutput "GALA" "GUSDC" (BN.fin 5) none
        (fun f => match f with
          | .PERCENT_00_05 => .err { message := "m", code := "CONFLICT", details := [] }
          | .PERCENT_00_30 => .ok { inTokenAmount := 22, outTokenAmount := 10
                                    feeTier := .PERCENT_00_30 }
          | .PERCENT_01_00 => .ok { inTokenAmount := 18, outTokenAmount := 12
                                    feeTier := .PERCENT_01_00 }) =
        Except.ok r ∧
      ({ inTokenAmount := 22, outTokenAmount := 10
         feeTier := .PERCENT_00_30 } : GetQuoteResult) ::
        [{ inTokenAmount := 18, outTokenAmount := 12, feeTier := .PERCENT_01_00 }] =
        l₁ ++ r :: l₂ ∧
      (∀ y ∈ l₁, r.inTokenAmount < y.inTokenAmount) ∧
      (∀ y ∈ l₂, r.inTokenAmount ≤ y.inTokenAmount)) :=
  quote_aggregation_selects_best 5 (by decide) "GALA" "GUSDC"
    (fun f => match f with
      | .PERCENT_00_05 => .err { message := "m", code := "CONFLICT", details := [] }
      | .PERCENT_00_30 => .ok { inTokenAmount := 22, outTokenAmount := 10
                                feeTier := .PERCENT_00_30 }
      | .PERCENT_01_00 => .ok { inTokenAmount := 18, outTokenAmount := 12
                                feeTier := .PERCENT_01_00 })
    { inTokenAmount := 22, outTokenAmount := 10, feeTier := .PERCENT_00_30 }
    [{ inTokenAmount := 18, outTokenAmount := 12, feeTier := .PERCENT_01_00 }]
    (by simp [collectTierQuotes, allFees, isPoolAbsentCode, Except.map])

lemma collectTierQuotes_all_filtered (singleQuote : FEE_TIER → TierOutcome)
    (fs : List FEE_TIER)
    (h : ∀ f ∈ fs, ∀ e, singleQuote f = .err e → isPoolAbsentCode e.code = true) :
    collectTierQuotes singleQuote fs = Except.ok (fs.filterMap (fun f =>
      match singleQuote f with
      | .ok q => some q
      | .err _ => none)) := by
  induction fs with
  | nil => rfl
  | cons f fs ih =>
    have htail := ih (fun g hg => h g (List.mem_cons_of_mem f hg))
    cases hf : singleQuote f with
    | ok q =>
      simp [collectTierQuotes, hf, List.filterMap_cons, htail, Except.map]
    | err e =>
      have habs : isPoolAbsentCode e.code = true := h f (List.mem_cons_self f fs) e hf
      simp [collectTierQuotes, hf, habs, List.filterMap_cons, htail]

lemma collectTierQuotes_propagates (singleQuote : FEE_TIER → TierOutcome)
    (fs₁ : List FEE_TIER) (f : FEE_TIER) (fs₂ : List FEE_TIER) (e : GSwapSDKError)
    (hf : singleQuote f = .err e) (habs : isPoolAbsentCode e.code = false)
    (hpre : ∀ g ∈ fs₁, ∀ e2, singleQuote g = .err e2 → isPoolAbsentCode e2.code = true) :
    collectTierQuotes singleQuote (fs₁ ++ f :: fs₂) = Except.error e := by
  induction fs₁ with
  | nil => simp [collectTierQuotes, hf, habs]
  | cons g gs ih =>
    have htail := ih (fun g2 hg2 => hpre g2 (List.mem_cons_of_mem g hg2))
    cases hg : singleQuote g with
    | ok q =>
      simp [collectTierQuotes, hg, htail, Except.map]
    | err e2 =>
      have h2 : isPoolAbsentCode e2.code = true :=
        hpre g (List.mem_cons_self g gs) e2 hg
      simp [collectTierQuotes, hg, h2, htail]

/-- Claim C6: with no fee tier specified, a per-tier failure whose error code is
`CONFLICT` or `OBJECT_NOT_FOUND` is silently filtered out; when every tier is
absent both quote functions throw `NO_POOL_AVAILABLE`; and a per-tier failure
with any other code is propagated to the caller. -/
theorem quote_aggregation_pool_absent_handling (a : ℚ) (ha : 0 < a)
    (tokenIn tokenOut : String) (singleQuote : FEE_TIER → TierOutcome) :
    ((∀ f, ∃ e, singleQuote f = .err e ∧ isPoolAbsentCode e.code = true) →
      quoteExactInput tokenIn tokenOut (BN.fin a) none singleQuote =
        Except.error (noPoolAvailableError tokenIn tokenOut none) ∧
      quoteExactOutput tokenIn tokenOut (BN.fin a) none singleQuote =
        Except.error (noPoolAvailableError tokenIn tokenOut none) ∧
      (noPoolAvailableError tokenIn tokenOut none).code = "NO_POOL_AVAILABLE") ∧
    ((∀ f e, singleQuote f = .err e → isPoolAbsentCode e.code = true) →
      collectTierQuotes singleQuote allFees = Except.ok (allFees.filterMap (fun f =>
        match singleQuote f with
        | .ok q => some q
        | .err _ => none))) ∧
    (∀ fs₁ f fs₂ e, allFees = fs₁ ++ f :: fs₂ →
      singleQuote f = .err e → isPoolAbsentCode e.code = false →
      (∀ g ∈ fs₁, ∀ e2, singleQuote g = .err e2 → isPoolAbsentCode e2.code = true) →
      quoteExactInput tokenIn tokenOut (BN.fin a) none singleQuote = Except.error e ∧
      quoteExactOutput tokenIn tokenOut (BN.fin a) none singleQuote = Except.error e) := by
  refine ⟨?_, ?_, ?_⟩
  · intro h
    have hcollect : collectTierQuotes singleQuote allFees = Except.ok [] := by
      have hall : ∀ f ∈ allFees, ∀ e, singleQuote f = .err e →
          isPoolAbsentCode e.code = true := by
        intro f _ e hf
        obtain ⟨e2, he2, ha2⟩ := h f
        rw [hf] at he2
        injection he2 with he2
        rwa [he2]
      have hnil : (allFees.filterMap (fun f =>
          match singleQuote f with
          | .ok q => some q
          | .err _ => none)) = [] := by
        rw [List.filterMap_eq_nil]
        intro f _
        obtain ⟨e2, he2, _⟩ := h f
        simp [he2]
      rw [collectTierQuotes_all_filtered singleQuote allFees hall, hnil]
    refine ⟨?_, ?_, rfl⟩
    · simp [quoteExactInput, validateNumericAmount_pos a "amountIn" ha, hcollect,
        Bind.bind, Except.bind]
    · simp [quoteExactOutput, validateNumericAmount_pos a "amountOut" ha, hcollect,
        Bind.bind, Except.bind]
  · intro h
    exact collectTierQuotes_all_filtered singleQuote allFees (fun f _ => h f)
  · intro fs₁ f fs₂ e hsplit hf habs hpre
    have hcollect : collectTierQuotes singleQuote allFees = Except.error e := by
      rw [hsplit]
      exact collectTierQuotes_propagates singleQuote fs₁ f fs₂ e hf habs hpre
    constructor
    · simp [quoteExactInput, validateNumericAmount_pos a "amountIn" ha, hcollect,
        Bind.bind, Except.bind]
    · simp [quoteExactOutput, validateNumericAmount_pos a "amountOut" ha, hcollect,
        Bind.bind, Except.bind]

/-- Witness for C6: every tier absent (one CONFLICT, two OBJECT_NOT_FOUND) throws
`NO_POOL_AVAILABLE` from both quote functions. -/
theorem quote_aggregation_pool_absent_handling_witness :
    quoteExactInput "GALA" "GUSDC" (BN.fin 5) none
      (fun f => match f with
        | .PERCENT_00_05 => .err { message := "m1", code := "CONFLICT", details := [] }
        | .PERCENT_00_30 => .err { message := "m2", code := "OBJECT_NOT_FOUND"
                                   details := [] }
        | .PERCENT_01_00 => .err { message := "m3", code := "OBJECT_NOT_FOUND"
                                   details := [] }) =
      Except.error (noPoolAvailableError "GALA" "GUSDC" none) ∧
    quoteExactOutput "GALA" "GUSDC" (BN.fin 5) none
      (fun f => match f with
        | .PERCENT_00_05 => .err { message := "m1", code := "CONFLICT", details := [] }
        | .PERCENT_00_30 => .err { message := "m2", code := "OBJECT_NOT_FOUND"
                                   details := [] }
        | .PERCENT_01_00 => .err { message := "m3", code := "OBJECT_NOT_FOUND"
                                   details := [] }) =
      Except.error (noPoolAvailableError "GALA" "GUSDC" none) ∧
    (noPoolAvailableError "GALA" "GUSDC" none).code = "NO_POOL_AVAILABLE" :=
  (quote_aggregation_pool_absent_handling 5 (by decide) "GALA" "GUSDC"
    (fun f => match f with
      | .PERCENT_00_05 => .err { message := "m1", code := "CONFLICT", details := [] }
      | .PERCENT_00_30 => .err { message := "m2", code := "OBJECT_NOT_FOUND"
                                 details := [] }
      | .PERCENT_01_00 => .err { message := "m3", code := "OBJECT_NOT_FOUND"
                                 details := [] })).1
    (fun f => match f with
      | .PERCENT_00_05 => ⟨{ message := "m1", code := "CONFLICT", details := [] },
          rfl, by decide⟩
      | .PERCENT_00_30 => ⟨{ message := "m2", code := "OBJECT_NOT_FOUND"
                             details := [] }, rfl, by decide⟩
      | .PERCENT_01_00 => ⟨{ message := "m3", code := "OBJECT_NOT_FOUND"
                             details := [] }, rfl, by decide⟩)

end Quoting

/-!
Tick/price conversion, from `src/classes/pools.ts` (`Pools`). The IEEE-754
steps of the conversion (the `Math.round(Math.log p / Math.log 1.0001)` step,
the overflow of `BigNumber.prototype.toNumber` to `Infinity` for finite values
beyond double range, and `Math.pow(1.0001, tick)`) are abstracted as a
parameter so every theorem holds for any realisation of the float arithmetic.
-/

/-- Abstraction of the floating-point steps inside the tick/price conversion. -/
structure FloatModel where
  overflowsToInfinity : ℚ → Bool
  roundLogTick : ℚ → ℤ
  pow10001 : ℤ → ℚ

namespace Pools

/-- Models `Pools.calculateTicksForPrice`: validates the price (zero allowed) and
the tick spacing, returns the clamp bound -886800 at price zero and 886800 when
the float coercion of the price is `Infinity`, and otherwise rounds the float
log-ratio down to a multiple of the tick spacing, clamped to ±886800. A price of
`Infinity` itself is rejected by `validateNumericAmount` (reason `not_finite`)
before either special branch is reached. -/
def calculateTicksForPrice (fm : FloatModel) (price : BN) (tickSpacing : ℤ) :
    Except GSwapSDKError ℤ :=
  match validateNumericAmount price "price" true with
  | .error e => .error e
  | .ok _ =>
    match validateTickSpacing tickSpacing with
    | .error e => .error e
    | .ok _ =>
      let priceNumber := price.toRatOr 0
      if priceNumber = 0 then
        .ok (-886800)
      else if fm.overflowsToInfinity priceNumber then
        .ok 886800
      else
        let uncoercedTicks := fm.roundLogTick priceNumber
        let ticks := (Int.fdiv uncoercedTicks tickSpacing) * tickSpacing
        .ok (min (max ticks (-886800)) 886800)

/-- Models `Pools.calculatePriceForTicks`: the boundary ticks map exactly to 0 and
`Infinity`; every other tick goes through float exponentiation. -/
def calculatePriceForTicks (fm : FloatModel) (tick : ℤ) : BN :=
  if tick = -886800 then BN.fin 0
  else if tick = 886800 then BN.inf
  else BN.fin (fm.pow10001 tick)

/-- Claim C3 against the code: price 0 maps to tick -886800 for every valid tick
spacing and the boundary ticks map exactly to price 0 and `Infinity`; but a price
of `Infinity` does not return tick 886800 — `calculateTicksForPrice` throws a
`VALIDATION_ERROR` with reason `not_finite` from its numeric validation, which
runs before the function's own `Infinity` branch can fire. -/
theorem ticks_price_boundaries (fm : FloatModel) (ts : ℤ) (hts : 0 < ts) :
    calculateTicksForPrice fm (BN.fin 0) ts = Except.ok (-886800) ∧
    (∃ e, calculateTicksForPrice fm BN.inf ts = Except.error e ∧
      e.code = "VALIDATION_ERROR" ∧
      ("reason", DetailValue.str "not_finite") ∈ e.details) ∧
    calculatePriceForTicks fm (-886800) = BN.fin 0 ∧
    calculatePriceForTicks fm 886800 = BN.inf := by
  refine ⟨?_, ?_, by simp [calculatePriceForTicks], by simp [calculatePriceForTicks]⟩
  · simp [calculateTicksForPrice, validateNumericAmount, validateTickSpacing,
      BN.isFinite, BN.isZero, BN.isNegative, BN.toRatOr, not_le.mpr hts]
  · refine ⟨{ message := "Invalid price: must be a finite number"
              code := "VALIDATION_ERROR"
              details := [("type", .str "INVALID_NUMERIC_AMOUNT"),
                          ("parameterName", .str "price"),
                          ("value", .str "Infinity"),
                          ("reason", .str "not_finite")] }, ?_, rfl, by simp⟩
    simp [calculateTicksForPrice, validateNumericAmount, BN.isFinite, BN.toDetail]

/-- Witness for C3 at tick spacing 1 and a trivial float model. -/
theorem ticks_price_boundaries_witness :
    calculateTicksForPrice
      { overflowsToInfinity := fun _ => false, roundLogTick := fun _ => 0
        pow10001 := fun _ => 1 } (BN.fin 0) 1 = Except.ok (-886800) ∧
    (∃ e, calculateTicksForPrice
      { overflowsToInfinity := fun _ => false, roundLogTick := fun _ => 0
        pow10001 := fun _ => 1 } BN.inf 1 = Except.error e ∧
      e.code = "VALIDATION_ERROR" ∧
      ("reason", DetailValue.str "not_finite") ∈ e.details) ∧
    calculatePriceForTicks
      { overflowsToInfinity := fun _ => false, roundLogTick := fun _ => 0
        pow10001 := fun _ => 1 } (-886800) = BN.fin 0 ∧
    calculatePriceForTicks
      { overflowsToInfinity := fun _ => false, roundLogTick := fun _ => 0
        pow10001 := fun _ => 1 } 886800 = BN.inf :=
  ticks_price_boundaries
    { overflowsToInfinity := fun _ => false, roundLogTick := fun _ => 0
      pow10001 := fun _ => 1 } 1 (by decide)

end Pools

/-!
Optimal paired-liquidity sizing, from `src/classes/positions.ts`
(`Positions.calculateOptimalPositionSize`). bignumber.js arithmetic: plus,
minus and times are exact; division and square root round the result to
`DECIMAL_PLACES` (the default 20) decimal places with the default rounding mode
`ROUND_HALF_UP` (half away from zero); non-finite operands propagate with the
usual `Infinity`/`NaN` rules. The decimal powers `10 ** k` and
`BigNumber(10).pow(k)` are modelled as exact rational powers (exact for every
exponent produced by validated token decimals up to the 20-decimal regime). -/

/-- Round a rational to `dp` decimal places, half away from zero
(bignumber.js `ROUND_HALF_UP`). -/
def roundHalfUpDp (dp : ℕ) (q : ℚ) : ℚ :=
  if q < 0 then -(((⌊-q * 10 ^ dp + 1/2⌋ : ℤ) : ℚ) / 10 ^ dp)
  else ((⌊q * 10 ^ dp + 1/2⌋ : ℤ) : ℚ) / 10 ^ dp

/-- Truncate a rational toward zero at `dp` decimal places
(bignumber.js `ROUND_DOWN`, as used by `toFixed(dp, ROUND_DOWN)`). -/
def roundDownDp (dp : ℕ) (q : ℚ) : ℚ :=
  if q < 0 then -(((⌊-q * 10 ^ dp⌋ : ℤ) : ℚ) / 10 ^ dp)
  else ((⌊q * 10 ^ dp⌋ : ℤ) : ℚ) / 10 ^ dp

/-- The square root of a nonnegative rational rounded half-up to 20 decimal
places: the integer `(Nat.sqrt (4·n·d·10^40) + d) / (2·d)` is exactly
`⌊√(n/d)·10^20 + 1/2⌋` for `q = n/d`. -/
def ratSqrt20 (q : ℚ) : ℚ :=
  (((Nat.sqrt (4 * q.num.toNat * q.den * 10 ^ 40) + q.den) / (2 * q.den) : ℕ) : ℚ) /
    10 ^ 20

/-- Models `BigNumber.prototype.times` (exact on finite values). -/
def BN.times : BN → BN → BN
  | .nan, _ => .nan
  | _, .nan => .nan
  | .fin a, .fin b => .fin (a * b)
  | .fin a, .inf => if a = 0 then .nan else if 0 < a then .inf else .ninf
  | .inf, .fin a => if a = 0 then .nan else if 0 < a then .inf else .ninf
  | .fin a, .ninf => if a = 0 then .nan else if 0 < a then .ninf else .inf
  | .ninf, .fin a => if a = 0 then .nan else if 0 < a then .ninf else .inf
  | .inf, .inf => .inf
  | .inf, .ninf => .ninf
  | .ninf, .inf => .ninf
  | .ninf, .ninf => .inf

/-- Models `BigNumber.prototype.minus` (exact on finite values). -/
def BN.minus : BN → BN → BN
  | .nan, _ => .nan
  | _, .nan => .nan
  | .fin a, .fin b => .fin (a - b)
  | .fin _, .inf => .ninf
  | .fin _, .ninf => .inf
  | .inf, .fin _ => .inf
  | .ninf, .fin _ => .ninf
  | .inf, .inf => .nan
  | .inf, .ninf => .inf
  | .ninf, .inf => .ninf
  | .ninf, .ninf => .nan

/-- Models `BigNumber.prototype.div` at the default `DECIMAL_PLACES = 20` setting:
a finite quotient is rounded half-up to 20 decimal places; division by zero gives
a signed `Infinity` (`NaN` for 0/0). -/
def BN.div20 : BN → BN → BN
  | .nan, _ => .nan
  | _, .nan => .nan
  | .fin a, .fin b =>
    if b = 0 then (if a = 0 then .nan else if 0 < a then .inf else .ninf)
    else .fin (roundHalfUpDp 20 (a / b))
  | .fin _, .inf => .fin 0
  | .fin _, .ninf => .fin 0
  | .inf, .fin b => if 0 ≤ b then .inf else .ninf
  | .ninf, .fin b => if 0 ≤ b then .ninf else .inf
  | .inf, .inf => .nan
  | .inf, .ninf => .nan
  | .ninf, .inf => .nan
  | .ninf, .ninf => .nan

/-- Models `BigNumber.prototype.sqrt` at the default settings: the root of a
finite nonnegative value is rounded half-up to 20 decimal places; a negative
value gives `NaN`. -/
def BN.sqrt20 : BN → BN
  | .fin q => if q < 0 then .nan else .fin (ratSqrt20 q)
  | .inf => .inf
  | .ninf => .nan
  | .nan => .nan

/-- Models `BigNumber(x.toFixed(dp, ROUND_DOWN))`: truncation toward zero at `dp`
decimal places; non-finite values round-trip unchanged. -/
def BN.toFixedRoundDown (dp : ℕ) : BN → BN
  | .fin q => .fin (roundDownDp dp q)
  | x => x

namespace Positions

/-- Models `Positions.calculateOptimalPositionSize`: validate the inputs,
substitute the finite ceiling `1e18` for a non-finite upper price, scale the
token amount by `10^(tokenDecimals - otherTokenDecimals)`, apply the
concentrated-liquidity identity `L = amount·√upper·√spot/(√upper - √spot)` and
paired amount `L·(√spot - √lower)`, remove the scale factor, and truncate the
result toward zero at the paired token's decimal precision. -/
def calculateOptimalPositionSize (tokenAmount spotPrice lowerPrice upperPrice : BN)
    (tokenDecimals otherTokenDecimals : ℤ) : Except GSwapSDKError BN :=
  match validateNumericAmount tokenAmount "tokenAmount" with
  | .error e => .error e
  | .ok _ =>
  match validatePriceValues spotPrice lowerPrice upperPrice with
  | .error e => .error e
  | .ok _ =>
  match validateTokenDecimals tokenDecimals "tokenDecimals" with
  | .error e => .error e
  | .ok _ =>
  match validateTokenDecimals otherTokenDecimals "otherTokenDecimals" with
  | .error e => .error e
  | .ok _ =>
    let bnUpperPrice := if upperPrice.isFinite then upperPrice else BN.fin (10 ^ 18)
    let scale : BN := BN.fin ((10 : ℚ) ^ (tokenDecimals - otherTokenDecimals))
    let liquidityAmount :=
      (((tokenAmount.times scale).times spotPrice.sqrt20).times
        bnUpperPrice.sqrt20).div20 (bnUpperPrice.sqrt20.minus spotPrice.sqrt20)
    let yAmount := liquidityAmount.times (spotPrice.sqrt20.minus lowerPrice.sqrt20)
    let untruncated :=
      yAmount.div20 (BN.fin ((10 : ℚ) ^ (tokenDecimals - otherTokenDecimals)))
    .ok (untruncated.toFixedRoundDown otherTokenDecimals.toNat)

end Positions

lemma roundHalfUpDp_eq (dp : ℕ) (q : ℚ) (m : ℤ) (hq : 0 ≤ q)
    (h1 : (m : ℚ) ≤ q * 10 ^ dp + 1/2) (h2 : q * 10 ^ dp + 1/2 < m + 1) :
    roundHalfUpDp dp q = (m : ℚ) / 10 ^ dp := by
  have hfloor : ⌊q * 10 ^ dp + 1/2⌋ = m := Int.floor_eq_iff.mpr ⟨h1, h2⟩
  rw [roundHalfUpDp, if_neg (not_lt.mpr hq), hfloor]

lemma roundHalfUpDp_nonneg (dp : ℕ) (q : ℚ) (hq : 0 ≤ q) :
    0 ≤ roundHalfUpDp dp q := by
  have hx : (0 : ℚ) ≤ q * 10 ^ dp + 1/2 := by positivity
  have h1 : (0 : ℤ) ≤ ⌊q * 10 ^ dp + 1/2⌋ := Int.floor_nonneg.mpr hx
  rw [roundHalfUpDp, if_neg (not_lt.mpr hq)]
  have h2 : (0 : ℚ) ≤ (⌊q * 10 ^ dp + 1/2⌋ : ℚ) := Int.cast_nonneg.mpr h1
  positivity

lemma roundDownDp_eq (dp : ℕ) (q : ℚ) (m : ℤ) (hq : 0 ≤ q)
    (h1 : (m : ℚ) ≤ q * 10 ^ dp) (h2 : q * 10 ^ dp < m + 1) :
    roundDownDp dp q = (m : ℚ) / 10 ^ dp := by
  have hfloor : ⌊q * 10 ^ dp⌋ = m := Int.floor_eq_iff.mpr ⟨h1, h2⟩
  rw [roundDownDp, if_neg (not_lt.mpr hq), hfloor]

lemma roundDownDp_le (dp : ℕ) (q : ℚ) (hq : 0 ≤ q) : roundDownDp dp q ≤ q := by
  rw [roundDownDp, if_neg (not_lt.mpr hq)]
  rw [div_le_iff (by positivity : (0:ℚ) < 10 ^ dp)]
  exact Int.floor_le _

lemma lt_roundDownDp_add (dp : ℕ) (q : ℚ) (hq : 0 ≤ q) :
    q < roundDownDp dp q + 1 / 10 ^ dp := by
  rw [roundDownDp, if_neg (not_lt.mpr hq), div_add_div_same,
    lt_div_iff (by positivity : (0:ℚ) < 10 ^ dp)]
  exact Int.lt_floor_add_one _

lemma roundDownDp_den (dp : ℕ) (q : ℚ) (hq : 0 ≤ q) :
    (roundDownDp dp q * 10 ^ dp).den = 1 := by
  rw [roundDownDp, if_neg (not_lt.mpr hq),
    div_mul_cancel₀ _ (by positivity : (10 : ℚ) ^ dp ≠ 0)]
  exact Rat.den_intCast _

lemma ratSqrt20_nonneg (q : ℚ) : 0 ≤ ratSqrt20 q := by
  rw [ratSqrt20]
  positivity

lemma ratSqrt20_spec (q : ℚ) (k : ℕ) (hq : 0 ≤ q) (hk : 1 ≤ k)
    (h1 : (2 * (k : ℚ) - 1) ^ 2 ≤ 4 * q * 10 ^ 40)
    (h2 : 4 * q * 10 ^ 40 < (2 * (k : ℚ) + 1) ^ 2) :
    ratSqrt20 q = (k : ℚ) / 10 ^ 20 := by
  obtain ⟨j, rfl⟩ := Nat.exists_eq_add_of_le hk
  have hd : 0 < q.den := q.pos
  have hdq : (0 : ℚ) < (q.den : ℚ) := by exact_mod_cast hd
  have hq_eq : (q.num.toNat : ℚ) = q * (q.den : ℚ) := by
    have hnum : (q.num.toNat : ℚ) = (q.num : ℚ) := by
      have h0 : (0 : ℤ) ≤ q.num := Rat.num_nonneg.mpr hq
      exact_mod_cast congrArg (fun z : ℤ => (z : ℚ)) (Int.toNat_of_nonneg h0)
    have hnd : (q.num : ℚ) = q * (q.den : ℚ)  := by
      have h0 := Rat.num_div_den q
      have h0' : (q.num : ℚ) / (q.den : ℚ) * (q.den : ℚ) = q * (q.den : ℚ) :=
        congrArg (fun x => x * (q.den : ℚ)) h0
      rwa [div_mul_cancel₀ _ (ne_of_gt hdq)] at h0'
    rw [hnum, hnd]
  have hcast : ((4 * q.num.toNat * q.den * 10 ^ 40 : ℕ) : ℚ) =
      4 * q * (q.den : ℚ) ^ 2 * 10 ^ 40 := by
    push_cast
    rw [hq_eq]
    ring
  have h1' : (2 * (j : ℚ) + 1) ^ 2 ≤ 4 * q * 10 ^ 40 := by
    have : (2 * ((1 + j : ℕ) : ℚ) - 1) = 2 * (j : ℚ) + 1 := by push_cast; ring
    rwa [this] at h1
  have h2' : 4 * q * 10 ^ 40 < (2 * (j : ℚ) + 3) ^ 2 := by
    have : (2 * ((1 + j : ℕ) : ℚ) + 1) = 2 * (j : ℚ) + 3 := by push_cast; ring
    rwa [this] at h2
  have hlow : q.den * (2 * j + 1) ≤ Nat.sqrt (4 * q.num.toNat * q.den * 10 ^ 40) := by
    apply Nat.le_sqrt.mpr
    have hQ : ((q.den * (2 * j + 1) * (q.den * (2 * j + 1)) : ℕ) : ℚ) ≤
        ((4 * q.num.toNat * q.den * 10 ^ 40 : ℕ) : ℚ) := by
      rw [hcast]
      push_cast
      have hmul := mul_le_mul_of_nonneg_right h1'
        (by positivity : (0 : ℚ) ≤ (q.den : ℚ) ^ 2)
      nlinarith [hmul]
    exact_mod_cast hQ
  have hhigh : Nat.sqrt (4 * q.num.toNat * q.den * 10 ^ 40) < q.den * (2 * j + 3) := by
    apply Nat.sqrt_lt.mpr
    have hQ : ((4 * q.num.toNat * q.den * 10 ^ 40 : ℕ) : ℚ) <
        ((q.den * (2 * j + 3) * (q.den * (2 * j + 3)) : ℕ) : ℚ) := by
      rw [hcast]
      push_cast
      have hmul := mul_lt_mul_of_pos_right h2'
        (by positivity : (0 : ℚ) < (q.den : ℚ) ^ 2)
      nlinarith [hmul]
    exact_mod_cast hQ
  have e1 : q.den * (2 * j + 1) + q.den = (1 + j) * (2 * q.den) := by ring
  have e2 : q.den * (2 * j + 3) + q.den = ((1 + j) + 1) * (2 * q.den) := by ring
  have hdiv : (Nat.sqrt (4 * q.num.toNat * q.den * 10 ^ 40) + q.den) / (2 * q.den) =
      1 + j := by
    apply Nat.div_eq_of_lt_le
    · rw [← e1]
      exact Nat.add_le_add_right hlow q.den
    · rw [← e2]
      exact Nat.add_lt_add_right hhigh q.den
  rw [ratSqrt20, hdiv]

lemma BN.sqrt20_fin (q : ℚ) (hq : 0 ≤ q) :
    BN.sqrt20 (BN.fin q) = BN.fin (ratSqrt20 q) := by
  simp [BN.sqrt20, not_lt.mpr hq]

lemma BN.div20_fin (a b : ℚ) (hb : b ≠ 0) :
    BN.div20 (BN.fin a) (BN.fin b) = BN.fin (roundHalfUpDp 20 (a / b)) := by
  simp [BN.div20, hb]

lemma validatePriceValues_ok (sp lo up : ℚ) (hsp : 0 ≤ sp) (hlo : 0 ≤ lo)
    (hup : 0 ≤ up) (hle : lo ≤ up) :
    validatePriceValues (BN.fin sp) (BN.fin lo) (BN.fin up) = Except.ok () := by
  simp [validatePriceValues, BN.isFinite, BN.isPositive, BN.isGreaterThan,
    hsp, hlo, hup, not_lt.mpr hle]

lemma validateTokenDecimals_ok (d : ℤ) (p : String) (hd : 0 ≤ d) :
    validateTokenDecimals d p = Except.ok () := by
  simp [validateTokenDecimals, not_lt.mpr hd]

lemma optimalPositionSize_finite (a sp lo up : ℚ) (d1 d2 : ℤ)
    (ha : 0 < a) (hsp : 0 ≤ sp) (hlo : 0 ≤ lo) (hup : 0 ≤ up) (hle : lo ≤ up)
    (hd1 : 0 ≤ d1) (hd2 : 0 ≤ d2)
    (hsu : ratSqrt20 sp < ratSqrt20 up) :
    Positions.calculateOptimalPositionSize (BN.fin a) (BN.fin sp) (BN.fin lo)
      (BN.fin up) d1 d2 =
    Except.ok (BN.fin (roundDownDp d2.toNat (roundHalfUpDp 20
      ((roundHalfUpDp 20 ((a * (10 : ℚ) ^ (d1 - d2) * ratSqrt20 sp * ratSqrt20 up) /
          (ratSqrt20 up - ratSqrt20 sp)) *
        (ratSqrt20 sp - ratSqrt20 lo)) / (10 : ℚ) ^ (d1 - d2))))) := by
  have hden : ratSqrt20 up - ratSqrt20 sp ≠ 0 := sub_ne_zero.mpr (ne_of_gt hsu)
  have hscale : ((10 : ℚ) ^ (d1 - d2)) ≠ 0 := zpow_ne_zero _ (by norm_num)
  rw [Positions.calculateOptimalPositionSize,
    Quoting.validateNumericAmount_pos a "tokenAmount" ha,
    validatePriceValues_ok sp lo up hsp hlo hup hle,
    validateTokenDecimals_ok d1 "tokenDecimals" hd1,
    validateTokenDecimals_ok d2 "otherTokenDecimals" hd2]
  simp only [BN.isFinite, if_pos]
  rw [BN.sqrt20_fin sp hsp, BN.sqrt20_fin up hup, BN.sqrt20_fin lo hlo]
  simp only [BN.times, BN.minus]
  rw [BN.div20_fin _ _ hden]
  simp only [BN.times]
  rw [BN.div20_fin _ _ hscale]
  simp only [BN.toFixedRoundDown]

lemma ratSqrt20_half : ratSqrt20 (1/2) = 70710678118654752440 / 10 ^ 20 := by
  have h := ratSqrt20_spec (1/2) 70710678118654752440 (by norm_num) (by norm_num)
    (by norm_num) (by norm_num)
  rw [h]
  norm_num

lemma ratSqrt20_lower : ratSqrt20 (9/20) = 67082039324993690892 / 10 ^ 20 := by
  have h := ratSqrt20_spec (9/20) 67082039324993690892 (by norm_num) (by norm_num)
    (by norm_num) (by norm_num)
  rw [h]
  norm_num

lemma ratSqrt20_upper : ratSqrt20 (11/20) = 74161984870956629487 / 10 ^ 20 := by
  have h := ratSqrt20_spec (11/20) 74161984870956629487 (by norm_num) (by norm_num)
    (by norm_num) (by norm_num)
  rw [h]
  norm_num

lemma optimalPositionSize_concrete :
    Positions.calculateOptimalPositionSize (BN.fin 1000) (BN.fin (1/2))
      (BN.fin (9/20)) (BN.fin (11/20)) 8 6 =
    Except.ok (BN.fin (551348916 / 10 ^ 6)) := by
  have hsu : ratSqrt20 (1/2) < ratSqrt20 (11/20) := by
    rw [ratSqrt20_half, ratSqrt20_upper]
    norm_num
  rw [optimalPositionSize_finite 1000 (1/2) (9/20) (11/20) 8 6 (by norm_num)
    (by norm_num) (by norm_num) (by norm_num) (by norm_num) (by norm_num)
    (by norm_num) hsu]
  rw [ratSqrt20_half, ratSqrt20_lower, ratSqrt20_upper]
  have h1 : roundHalfUpDp 20
      ((1000 * (10 : ℚ) ^ ((8 : ℤ) - 6) * (70710678118654752440 / 10 ^ 20) *
        (74161984870956629487 / 10 ^ 20)) /
       (74161984870956629487 / 10 ^ 20 - 70710678118654752440 / 10 ^ 20)) =
      151943730801476857172092324 / 10 ^ 20 := by
    have h := roundHalfUpDp_eq 20
      ((1000 * (10 : ℚ) ^ ((8 : ℤ) - 6) * (70710678118654752440 / 10 ^ 20) *
        (74161984870956629487 / 10 ^ 20)) /
       (74161984870956629487 / 10 ^ 20 - 70710678118654752440 / 10 ^ 20))
      151943730801476857172092324 (by norm_num) (by norm_num) (by norm_num)
    rw [h]
    norm_num
  rw [h1]
  have h2 : roundHalfUpDp 20
      ((151943730801476857172092324 / 10 ^ 20 *
        (70710678118654752440 / 10 ^ 20 - 67082039324993690892 / 10 ^ 20)) /
       (10 : ℚ) ^ ((8 : ℤ) - 6)) =
      55134891603983206351889 / 10 ^ 20 := by
    have h := roundHalfUpDp_eq 20
      ((151943730801476857172092324 / 10 ^ 20 *
        (70710678118654752440 / 10 ^ 20 - 67082039324993690892 / 10 ^ 20)) /
       (10 : ℚ) ^ ((8 : ℤ) - 6))
      55134891603983206351889 (by norm_num) (by norm_num) (by norm_num)
    rw [h]
    norm_num
  rw [h2]
  have h3 : roundDownDp (6 : ℤ).toNat ((55134891603983206351889 : ℚ) / 10 ^ 20) =
      551348916 / 10 ^ 6 := by
    have h := roundDownDp_eq 6 ((55134891603983206351889 : ℚ) / 10 ^ 20)
      551348916 (by norm_num) (by norm_num) (by norm_num)
    rw [show ((6 : ℤ).toNat) = 6 from rfl, h]
    norm_num
  rw [h3]

lemma validatePriceValues_infinite_upper (spotPrice lowerPrice : BN)
    (hv : validatePriceValues spotPrice lowerPrice BN.inf = Except.ok ()) :
    validatePriceValues spotPrice lowerPrice (BN.fin (10 ^ 18)) = Except.ok () := by
  cases spotPrice with
  | fin sp =>
    cases lowerPrice with
    | fin lo =>
      simp [validatePriceValues, BN.isFinite, BN.isPositive, BN.isGreaterThan]
        at hv ⊢
      by_cases h1 : sp < 0 ∨ lo < 0
      · rw [if_pos h1] at hv
        exact absurd hv (by simp)
      · rw [if_neg h1] at hv ⊢
        by_cases h2 : (10 ^ 18 : ℚ) < lo
        · rw [if_pos h2] at hv
          exact absurd hv (by simp)
        · rw [if_neg h2]
    | inf => simp [validatePriceValues, BN.isFinite] at hv
    | ninf => simp [validatePriceValues, BN.isFinite] at hv
    | nan => simp [validatePriceValues, BN.isFinite] at hv
  | inf => simp [validatePriceValues, BN.isFinite] at hv
  | ninf => simp [validatePriceValues, BN.isFinite] at hv
  | nan => simp [validatePriceValues, BN.isFinite] at hv

lemma optimalPositionSize_infinite_upper (tokenAmount spotPrice lowerPrice : BN)
    (d1 d2 : ℤ)
    (hv : validatePriceValues spotPrice lowerPrice BN.inf = Except.ok ()) :
    Positions.calculateOptimalPositionSize tokenAmount spotPrice lowerPrice
      BN.inf d1 d2 =
    Positions.calculateOptimalPositionSize tokenAmount spotPrice lowerPrice
      (BN.fin (10 ^ 18)) d1 d2 := by
  have hv' := validatePriceValues_infinite_upper spotPrice lowerPrice hv
  rw [Positions.calculateOptimalPositionSize, Positions.calculateOptimalPositionSize,
    hv, hv']
  cases hva : validateNumericAmount tokenAmount "tokenAmount" with
  | error e => rfl
  | ok u =>
    cases u
    cases hvd1 : validateTokenDecimals d1 "tokenDecimals" with
    | error e => rfl
    | ok u1 =>
      cases u1
      cases hvd2 : validateTokenDecimals d2 "otherTokenDecimals" with
      | error e => rfl
      | ok u2 =>
        cases u2
        simp [BN.isFinite]

/-- Claim C9: `calculateOptimalPositionSize` substitutes the finite ceiling `1e18`
for an infinite upper price; on finite validated inputs it returns the paired
amount computed by the concentrated-liquidity identity (in 20-decimal-place
rounded decimal arithmetic) truncated toward zero at the paired token's decimal
precision — never rounded up, and with at most that many decimal places; and at
the inputs (1000, spot 0.5, lower 0.45, upper 0.55, decimals 8 and 6) it returns
exactly 551.348916, a finite non-negative value with at most 6 decimal places. -/
theorem optimal_position_size_correct :
    (∀ (tokenAmount spotPrice lowerPrice : BN) (d1 d2 : ℤ),
      validatePriceValues spotPrice lowerPrice BN.inf = Except.ok () →
      Positions.calculateOptimalPositionSize tokenAmount spotPrice lowerPrice
        BN.inf d1 d2 =
      Positions.calculateOptimalPositionSize tokenAmount spotPrice lowerPrice
        (BN.fin (10 ^ 18)) d1 d2) ∧
    (∀ (a sp lo up : ℚ) (d1 d2 : ℤ),
      0 < a → 0 ≤ sp → 0 ≤ lo → 0 ≤ up → lo ≤ up → 0 ≤ d1 → 0 ≤ d2 →
      ratSqrt20 lo ≤ ratSqrt20 sp → ratSqrt20 sp < ratSqrt20 up →
      ∃ u : ℚ, 0 ≤ u ∧
        Positions.calculateOptimalPositionSize (BN.fin a) (BN.fin sp) (BN.fin lo)
          (BN.fin up) d1 d2 = Except.ok (BN.fin (roundDownDp d2.toNat u)) ∧
        roundDownDp d2.toNat u ≤ u ∧
        u < roundDownDp d2.toNat u + 1 / 10 ^ d2.toNat ∧
        (roundDownDp d2.toNat u * 10 ^ d2.toNat).den = 1) ∧
    (Positions.calculateOptimalPositionSize (BN.fin 1000) (BN.fin (1/2))
        (BN.fin (9/20)) (BN.fin (11/20)) 8 6 =
      Except.ok (BN.fin (551348916 / 10 ^ 6)) ∧
     (0 : ℚ) ≤ 551348916 / 10 ^ 6 ∧
     ((551348916 / 10 ^ 6 : ℚ) * 10 ^ 6).den = 1) := by
  refine ⟨?_, ?_, ?_⟩
  · intro tokenAmount spotPrice lowerPrice d1 d2 hv
    exact optimalPositionSize_infinite_upper tokenAmount spotPrice lowerPrice d1 d2 hv
  · intro a sp lo up d1 d2 ha hsp hlo hup hle hd1 hd2 hsl hsu
    have h10 : (0 : ℚ) < (10 : ℚ) ^ (d1 - d2) := zpow_pos (by norm_num) _
    have hnum : 0 ≤ a * (10 : ℚ) ^ (d1 - d2) * ratSqrt20 sp * ratSqrt20 up :=
      mul_nonneg (mul_nonneg (mul_nonneg ha.le h10.le) (ratSqrt20_nonneg sp))
        (ratSqrt20_nonneg up)
    have hden : 0 < ratSqrt20 up - ratSqrt20 sp := sub_pos.mpr hsu
    have hliq : 0 ≤ roundHalfUpDp 20
        ((a * (10 : ℚ) ^ (d1 - d2) * ratSqrt20 sp * ratSqrt20 up) /
          (ratSqrt20 up - ratSqrt20 sp)) :=
      roundHalfUpDp_nonneg _ _ (div_nonneg hnum hden.le)
    have hy : 0 ≤ roundHalfUpDp 20
        ((a * (10 : ℚ) ^ (d1 - d2) * ratSqrt20 sp * ratSqrt20 up) /
          (ratSqrt20 up - ratSqrt20 sp)) * (ratSqrt20 sp - ratSqrt20 lo) :=
      mul_nonneg hliq (sub_nonneg.mpr hsl)
    have hu0 : 0 ≤ roundHalfUpDp 20
        ((roundHalfUpDp 20 ((a * (10 : ℚ) ^ (d1 - d2) * ratSqrt20 sp * ratSqrt20 up) /
            (ratSqrt20 up - ratSqrt20 sp)) *
          (ratSqrt20 sp - ratSqrt20 lo)) / (10 : ℚ) ^ (d1 - d2)) :=
      roundHalfUpDp_nonneg _ _ (div_nonneg hy h10.le)
    exact ⟨_, hu0,
      optimalPositionSize_finite a sp lo up d1 d2 ha hsp hlo hup hle hd1 hd2 hsu,
      roundDownDp_le _ _ hu0, lt_roundDownDp_add _ _ hu0, roundDownDp_den _ _ hu0⟩
  · refine ⟨optimalPositionSize_concrete, by norm_num, ?_⟩
    have hv : ((551348916 / 10 ^ 6 : ℚ) * 10 ^ 6) = 551348916 := by norm_num
    rw [hv]
    rfl

/-- Witness for C9: the infinite-upper substitution at concrete prices, the
truncation bounds at the concrete instance, and the exact concrete value. -/
theorem optimal_position_size_correct_witness :
    (Positions.calculateOptimalPositionSize (BN.fin 1000) (BN.fin 1)
        (BN.fin (1/2)) BN.inf 8 6 =
      Positions.calculateOptimalPositionSize (BN.fin 1000) (BN.fin 1)
        (BN.fin (1/2)) (BN.fin (10 ^ 18)) 8 6) ∧
    (∃ u : ℚ, 0 ≤ u ∧
      Positions.calculateOptimalPositionSize (BN.fin 1000) (BN.fin (1/2))
        (BN.fin (9/20)) (BN.fin (11/20)) 8 6 =
        Except.ok (BN.fin (roundDownDp (6 : ℤ).toNat u)) ∧
      roundDownDp (6 : ℤ).toNat u ≤ u ∧
      u < roundDownDp (6 : ℤ).toNat u + 1 / 10 ^ (6 : ℤ).toNat ∧
      (roundDownDp (6 : ℤ).toNat u * 10 ^ (6 : ℤ).toNat).den = 1) ∧
    (Positions.calculateOptimalPositionSize (BN.fin 1000) (BN.fin (1/2))
        (BN.fin (9/20)) (BN.fin (11/20)) 8 6 =
      Except.ok (BN.fin (551348916 / 10 ^ 6)) ∧
     (0 : ℚ) ≤ 551348916 / 10 ^ 6 ∧
     ((551348916 / 10 ^ 6 : ℚ) * 10 ^ 6).den = 1) :=
  ⟨optimal_position_size_correct.1 (BN.fin 1000) (BN.fin 1) (BN.fin (1/2)) 8 6
    (by simp [validatePriceValues, BN.isFinite, BN.isPositive, BN.isGreaterThan]
        norm_num),
   optimal_position_size_correct.2.1 1000 (1/2) (9/20) (11/20) 8 6
    (by norm_num) (by norm_num) (by norm_num) (by norm_num) (by norm_num)
    (by norm_num) (by norm_num)
    (by rw [ratSqrt20_lower, ratSqrt20_half]; norm_num)
    (by rw [ratSqrt20_half, ratSqrt20_upper]; norm_num),
   optimal_position_size_correct.2.2⟩
